import Mathlib

/-!
Verification development for the `ipyloading` package
(`ipyloading/loading.py`): a shallow embedding of the `Loading` base
widget and the `Ring` variant, together with theorems about the claims
on its specification.

Modelling choices:
* Python numbers (int/float) are modelled by `ℚ`; the arithmetic in the
  source (`* 0.8`, `* 0.1`, `* 0.5`, `+`, `2*`) is exact on the rationals
  and no claim depends on binary floating-point rounding.
* Python values flowing through the parameter bag are `PyVal`
  (`None`, a number, or a string).
* `dict` is an insertion-ordered association list; `d[k] = v` replaces in
  place or appends a new key at the end, exactly like a Python dict.
* Exceptions are modelled with `Except String`, the error string naming
  the Python exception class (`"ValueError"`, `"TypeError"`, `"KeyError"`).
  The comparison `str > float` raises `TypeError` (Python 3 semantics).
* `string.Template.safe_substitute` is modelled by a character scanner
  `safeSubAux` implementing the documented behaviour of the default
  `Template` pattern: `$$` is an escaped dollar, `$name` and `$\x7bname\x7d`
  are substituted when the key is present, any other `$` and any
  placeholder whose key is missing are left verbatim.
* `print(...)` (the warning channel of `compute_margin`) is modelled by
  appending to a `log` field of the widget state.
-/

namespace IpyLoading

set_option maxRecDepth 100000
set_option maxHeartbeats 2000000

/-- A Python value as it appears in the widget's parameter bag. -/
inductive PyVal where
  | none
  | num (q : ℚ)
  | str (s : String)
  deriving DecidableEq

/-- Python truthiness for the values we model: `None`, `0` and `""` are falsy. -/
def PyVal.isFalsy : PyVal → Bool
  | .none => true
  | .num q => q == 0
  | .str s => s == ""

/-- `str(...)` applied to a bag value (the form substituted into templates).
Numbers are rendered through `ratStr`; nothing in the claims depends on the
precise decimal rendering, only on it being a function of the value. -/
def ratStr (q : ℚ) : String :=
  if q.den = 1 then toString q.num else toString q.num ++ "/" ++ toString q.den

def pyStr : PyVal → String
  | .none => "None"
  | .num q => ratStr q
  | .str s => s

/-- The parameter bag: an insertion-ordered association list, as a Python dict. -/
abbrev Bag := List (String × PyVal)

def lookupBag (bag : Bag) (k : String) : Option PyVal :=
  (bag.find? (fun p => p.1 == k)).map (fun p => p.2)

/-- `d[k] = v` on a Python dict: replace in place if the key exists,
else append at the end. -/
def updateBag (bag : Bag) (k : String) (v : PyVal) : Bag :=
  if bag.any (fun p => p.1 == k) then
    bag.map (fun p => if p.1 == k then (k, v) else p)
  else bag ++ [(k, v)]

/-- `for key, val in params.items(): d[key] = val` — merge `upd` into `bag`. -/
def mergeBag (bag : Bag) (upd : Bag) : Bag :=
  upd.foldl (fun b p => updateBag b p.1 p.2) bag

/-- Numeric value of a digit string (assuming the characters are digits). -/
def digitsNat (cs : List Char) : ℕ :=
  cs.foldl (fun n c => 10 * n + (c.toNat - 48)) 0

/-- A parsed decimal literal: sign, integer part, fractional digits value
and fractional digit count.  Splitting the parse from the conversion to `ℚ`
keeps the parsing fully computable. -/
structure Dec where
  sgn : Bool
  ip : ℕ
  fp : ℕ
  fd : ℕ
  deriving DecidableEq

/-- The rational value of a parsed decimal. -/
def decVal (d : Dec) : ℚ :=
  let mag : ℚ := (d.ip : ℚ) + (d.fp : ℚ) / (10 : ℚ) ^ d.fd
  if d.sgn then -mag else mag

/-- Decimal body accepted by Python's `float(...)`: digits with at most one
dot and at least one digit overall (`"12"`, `"1.5"`, `".5"`, `"5."`). -/
def parseUnsignedDec (cs : List Char) : Option (ℕ × ℕ × ℕ) :=
  let intPart := cs.takeWhile (fun c => c ≠ '.')
  let rest := cs.dropWhile (fun c => c ≠ '.')
  match rest with
  | [] =>
    if intPart ≠ [] && intPart.all Char.isDigit then
      some (digitsNat intPart, 0, 0)
    else Option.none
  | '.' :: frac =>
    if (intPart ≠ [] || frac ≠ []) && intPart.all Char.isDigit
        && frac.all Char.isDigit then
      some (digitsNat intPart, digitsNat frac, frac.length)
    else Option.none
  | _ :: _ => Option.none

/-- ASCII whitespace as stripped by Python's number parsing. -/
def isSpaceChar (c : Char) : Bool :=
  c == ' ' || c == '\t' || c == '\n' || c == '\r' || c == '\x0b' || c == '\x0c'

/-- Strip leading and trailing whitespace. -/
def stripChars (cs : List Char) : List Char :=
  ((cs.dropWhile isSpaceChar).reverse.dropWhile isSpaceChar).reverse

/-- The decimal literal accepted by Python's `float(s)`: optional sign
around a decimal body, surrounding whitespace stripped.  (Exponents,
`inf` and `nan` are not needed by any caller in this program.) -/
def parseDec (s : String) : Option Dec :=
  match stripChars s.data with
  | '-' :: cs => (parseUnsignedDec cs).map (fun t => ⟨true, t.1, t.2.1, t.2.2⟩)
  | '+' :: cs => (parseUnsignedDec cs).map (fun t => ⟨false, t.1, t.2.1, t.2.2⟩)
  | cs => (parseUnsignedDec cs).map (fun t => ⟨false, t.1, t.2.1, t.2.2⟩)

/-- Python `float(s)` on a string. -/
def parseFloat (s : String) : Option ℚ :=
  (parseDec s).map decVal

/-- Python `int(s)` on a string: optional sign and a nonempty digit string,
surrounding whitespace stripped; anything else raises `ValueError`. -/
def parseInt (s : String) : Option ℤ :=
  match stripChars s.data with
  | '-' :: cs =>
    if cs ≠ [] && cs.all Char.isDigit then some (-(digitsNat cs : ℤ)) else Option.none
  | '+' :: cs =>
    if cs ≠ [] && cs.all Char.isDigit then some ((digitsNat cs : ℤ)) else Option.none
  | cs =>
    if cs ≠ [] && cs.all Char.isDigit then some ((digitsNat cs : ℤ)) else Option.none

/-- Python `float(v)` on a bag value: numbers pass through, strings are
parsed (`ValueError` on failure), `None` raises `TypeError`. -/
def pyFloat : PyVal → Except String ℚ
  | .num q => .ok q
  | .str s =>
    match parseFloat s with
    | some q => .ok q
    | Option.none => .error "ValueError"
  | .none => .error "TypeError"

/-- First character of a Python identifier (default `Template` pattern,
ASCII, case-insensitive): letter or underscore. -/
def isIdStart (c : Char) : Bool :=
  c == '_' || (c ≥ 'a' && c ≤ 'z') || (c ≥ 'A' && c ≤ 'Z')

/-- Continuation character of an identifier: `isIdStart` or a digit. -/
def isIdCont (c : Char) : Bool :=
  isIdStart c || (c ≥ '0' && c ≤ '9')

/-- String value substituted for a placeholder key, when present. -/
def lookupStr (bag : Bag) (k : String) : Option String :=
  (lookupBag bag k).map pyStr

/-- `string.Template(t).safe_substitute(**bag)` as a character scanner.
`$$` emits `$`; `$\x7bname\x7d` and `$name` substitute when `name` is in the
bag and are left verbatim otherwise; a `$` not starting any of these forms
is left verbatim and scanning resumes right after it.

The `fuel` argument only makes the recursion structural (every recursive
call consumes at least one character, so `fuel = length of the input`
always suffices; see `safeSubAux_fuel`). -/
def safeSubAux (bag : Bag) : ℕ → List Char → List Char
  | _, [] => []
  | 0, l => l
  | fuel + 1, c :: rest =>
    if c = '$' then
      match rest with
      | [] => ['$']
      | d :: rest2 =>
        if d = '$' then
          '$' :: safeSubAux bag fuel rest2
        else if d = '\x7b' then
          let tk := rest2.takeWhile isIdCont
          let rest3 := rest2.dropWhile isIdCont
          if tk ≠ [] && isIdStart (tk.headD 'x') && rest3.headD 'x' == '\x7d' then
            match lookupStr bag (String.mk tk) with
            | some v => v.data ++ safeSubAux bag fuel rest3.tail
            | Option.none =>
              '$' :: '\x7b' :: (tk ++ '\x7d' :: safeSubAux bag fuel rest3.tail)
          else
            -- invalid braced form: `$` is left verbatim and scanning resumes
            -- at the `\x7b`, which (not being `$`) is copied literally
            '$' :: '\x7b' :: safeSubAux bag fuel rest2
        else if isIdStart d then
          match lookupStr bag (String.mk (d :: rest2.takeWhile isIdCont)) with
          | some v => v.data ++ safeSubAux bag fuel (rest2.dropWhile isIdCont)
          | Option.none =>
            '$' :: d :: (rest2.takeWhile isIdCont ++ safeSubAux bag fuel (rest2.dropWhile isIdCont))
        else
          -- `$` before a non-identifier character: both are copied literally
          '$' :: d :: safeSubAux bag fuel rest2
    else c :: safeSubAux bag fuel rest

/-- The scanner at its canonical fuel. -/
def subL (bag : Bag) (l : List Char) : List Char :=
  safeSubAux bag l.length l

/-- `Template(t).safe_substitute(**bag)`. -/
def safeSub (t : String) (bag : Bag) : String :=
  String.mk (subL bag t.data)

/-- A (braced) placeholder name accepted by the default `Template` pattern:
a letter or underscore followed by letters, digits or underscores. -/
def validIdent : List Char → Bool
  | [] => false
  | c :: cs => isIdStart c && cs.all isIdCont

/-- A template decomposed into literal chunks (containing no `$`) and
braced placeholders. -/
inductive Piece where
  | lit (s : String)
  | ph (n : String)
  deriving DecidableEq

/-- The template text a piece stands for. -/
def Piece.renderT : Piece → String
  | .lit s => s
  | .ph n => "$\x7b" ++ n ++ "\x7d"

def strConcat : List String → String
  | [] => ""
  | s :: rest => s ++ strConcat rest

/-- The template text of a piece list. -/
def renderPieces (ps : List Piece) : String :=
  strConcat (ps.map Piece.renderT)

/-- What `safe_substitute` turns one piece into: literal chunks unchanged,
placeholders substituted when their key is present and left verbatim
otherwise. -/
def substPiece (bag : Bag) : Piece → String
  | .lit s => s
  | .ph n =>
    match lookupStr bag n with
    | some v => v
    | Option.none => "$\x7b" ++ n ++ "\x7d"

/-- Well-formedness of a piece: literal chunks contain no `$`, placeholder
names are identifiers. -/
def pieceOk : Piece → Bool
  | .lit s => s.data.all (fun c => c ≠ '$')
  | .ph n => validIdent n.data

/-- The state of a `Loading` widget.  `sizeAttr`..`bgAttr` are the private
attributes `_size`, `_border`, `_margin`, `_color`, `_background_color`;
`value` is the displayed HTML markup (the traitlet the front end observes);
`log` collects `print(...)` output (the warning channel). -/
structure Widget where
  css : String
  html : String
  uid : String
  extra : Bag
  css_params : Bag
  sizeAttr : PyVal := .none
  borderAttr : PyVal := .none
  marginAttr : PyVal := .none
  colorAttr : PyVal := .none
  bgAttr : PyVal := .none
  value : String := ""
  log : List String := []
  deriving DecidableEq

/-- The wrapper template built in `Loading.__init__` (`self.template`). -/
def templateStr : String :=
  "\n        <head>\n          <style>\n            ${css}\n          </style>\n        </head>\n        <body>\n          <div class=\"${css_class}\">\n            ${html}\n          </div>\n        </body>\n        "

/-- `Loading.render`: substitute the bag into the css template, scope the
html by the unique id, and wrap both in the outer template. -/
def renderValue (w : Widget) : String :=
  let css := safeSub w.css w.css_params
  let html := safeSub w.html [("css_class", .str w.uid)]
  safeSub templateStr
    [("css", .str css), ("html", .str html), ("css_class", .str w.uid)]

def render (w : Widget) : Widget :=
  { w with value := renderValue w }

/-- `Loading.compute_color`. -/
def compute_color (c : PyVal) : Bag := [("color", c)]

/-- `Loading.compute_background_color`. -/
def compute_background_color (c : PyVal) : Bag := [("background_color", c)]

/-- The `color` setter: merge `compute_color`, set `_color`, re-render.
(`params['color']` is by construction the argument itself.) -/
def setColor (w : Widget) (c : PyVal) : Widget :=
  render { w with
    css_params := mergeBag w.css_params (compute_color c),
    colorAttr := c }

/-- The `background_color` setter. -/
def setBackgroundColor (w : Widget) (c : PyVal) : Widget :=
  render { w with
    css_params := mergeBag w.css_params (compute_background_color c),
    bgAttr := c }

/-- `Ring.compute_size`: `width = height = size`,
`inner_width = inner_height = size * 0.8`, in the source's dict order.
Arithmetic on a non-number raises `TypeError`. -/
def Ring.compute_size (v : PyVal) : Except String Bag :=
  match v with
  | .num q =>
    .ok [("inner_width", .num (q * (4/5))), ("inner_height", .num (q * (4/5))),
         ("width", .num q), ("height", .num q), ("size", .num q)]
  | _ => .error "TypeError"

/-- The `size` setter with `Ring.compute_size` dispatched: merge the
computed params, set `_size = params['size']`, re-render. -/
def Ring.setSize (w : Widget) (v : PyVal) : Except String Widget :=
  match Ring.compute_size v with
  | .error e => .error e
  | .ok params =>
    let w := { w with css_params := mergeBag w.css_params params }
    match lookupBag params "size" with
    | some s => .ok (render { w with sizeAttr := s })
    | Option.none => .error "KeyError"

/-- `Ring.compute_border`.  The reference dimension is
`float(self.css_params['inner_height'])`.  Falsy input defaults to
`0.1 * size`; strings ending in `%` scale the reference dimension, strings
ending in `px` are absolute; any other string is left unparsed, and the
final clamp comparison `border > size * 0.5` between a string and a number
then raises `TypeError`. -/
def Ring.compute_border (w : Widget) (v : PyVal) : Except String PyVal :=
  match lookupBag w.css_params "inner_height" with
  | Option.none => .error "KeyError"
  | some ih =>
    match pyFloat ih with
    | .error e => .error e
    | .ok size =>
      let b : Except String PyVal :=
        if v.isFalsy then .ok (.num (size * (1/10)))
        else
          match v with
          | .num q => .ok (.num q)
          | .str s =>
            if s.data.reverse.take 1 = ['%'] then
              match parseFloat (String.mk (s.data.reverse.drop 1).reverse) with
              | some n => .ok (.num (size * (n / 100)))
              | Option.none => .error "ValueError"
            else if s.data.reverse.take 2 = ['x', 'p'] then
              match parseFloat (String.mk (s.data.reverse.drop 2).reverse) with
              | some n => .ok (.num n)
              | Option.none => .error "ValueError"
            else .ok (.str s)
          | .none => .ok v
      match b with
      | .error e => .error e
      | .ok (.num q) => .ok (.num (if q > size * (1/2) then size * (1/2) else q))
      | .ok _ => .error "TypeError"

/-- The `border` setter with `Ring.compute_border` dispatched. -/
def Ring.setBorder (w : Widget) (v : PyVal) : Except String Widget :=
  match Ring.compute_border w v with
  | .error e => .error e
  | .ok b =>
    .ok (render { w with
      css_params := mergeBag w.css_params [("border", b)],
      borderAttr := b })

/-- `Ring.compute_margin`.  Falsy input defaults to `self.size * 0.1`;
strings are parsed with `int(...)` (`ValueError` on failure).  A margin
exceeding `0.1 * self.size` prints `'margin overfitted'` and reassigns
`self.size = float(self.css_params['inner_height']) + 2 * margin`, which
re-runs the size setter (and its render).  Returns the mutated widget and
the value for `dict(margin=margin)`. -/
def Ring.parse_margin (w : Widget) (v : PyVal) : Except String ℚ :=
  if v.isFalsy then
    match w.sizeAttr with
    | .num s => .ok (s * (1/10))
    | _ => .error "TypeError"
  else
    match v with
    | .num q => .ok q
    | .str s =>
      match parseInt s with
      | some n => .ok ((n : ℚ))
      | Option.none => .error "ValueError"
    | .none => .error "TypeError"

def Ring.compute_margin (w : Widget) (v : PyVal) : Except String (Widget × ℚ) :=
  match Ring.parse_margin w v with
  | .error e => .error e
  | .ok m =>
    match w.sizeAttr with
    | .num s =>
      if m > s * (1/10) then
        let w := { w with log := w.log ++ ["margin overfitted"] }
        match lookupBag w.css_params "inner_height" with
        | Option.none => .error "KeyError"
        | some ih =>
          match pyFloat ih with
          | .error e => .error e
          | .ok inner =>
            match Ring.setSize w (.num (inner + 2 * m)) with
            | .error e => .error e
            | .ok w => .ok (w, m)
      else .ok (w, m)
    | _ => .error "TypeError"

/-- The `margin` setter with `Ring.compute_margin` dispatched. -/
def Ring.setMargin (w : Widget) (v : PyVal) : Except String Widget :=
  match Ring.compute_margin w v with
  | .error e => .error e
  | .ok (w, m) =>
    .ok (render { w with
      css_params := mergeBag w.css_params [("margin", .num m)],
      marginAttr := .num m })

/-- The CSS template of `Ring.__init__` (literal braces shown as they are
in the source). -/
def ringCss : String :=
  "\n        .${css_class} \x7b\n          display: inline-block;\n          position: relative;\n          width: ${width}px;\n          height: ${height}px;\n        \x7d\n        .${css_class} div \x7b\n          box-sizing: border-box;\n          display: block;\n          position: absolute;\n          width: ${inner_width}px;\n          height: ${inner_height}px;\n          margin: ${margin}px;\n          border: ${border}px solid ${color};\n          border-radius: 50%;\n          animation: ${css_class} 1.2s cubic-bezier(0.5, 0, 0.5, 1) infinite;\n          border-color: ${color} transparent transparent transparent;\n          background-color: ${background_color};\n        \x7d\n        .${css_class} div:nth-child(1) \x7b\n          animation-delay: -0.45s;\n        \x7d\n        .${css_class} div:nth-child(2) \x7b\n          animation-delay: -0.3s;\n        \x7d\n        .${css_class} div:nth-child(3) \x7b\n          animation-delay: -0.15s;\n        \x7d\n        @keyframes ${css_class} \x7b\n          0% \x7b\n            transform: rotate(0deg);\n          \x7d\n          100% \x7b\n            transform: rotate(360deg);\n          \x7d\n        \x7d\n        "

/-- The HTML template of `Ring.__init__` (note the trailing blanks on the
first line, as in the source). -/
def ringHtml : String :=
  "        \n        <div></div>\n        <div></div>\n        <div></div>\n        <div></div>\n        "

/-- `Ring(...)`, i.e. `Loading.__init__` with `Ring`'s templates and
compute methods: build the initial `css_params` dict, then run the size,
border, margin, color and background_color setters in order, then render. -/
def Ring.init (uid : String) (size color background_color border margin : PyVal)
    (extra : Bag := []) : Except String Widget :=
  let w : Widget := {
    css := ringCss, html := ringHtml, uid := uid, extra := extra,
    css_params := mergeBag
      [("size", size), ("color", color), ("border", border),
       ("background_color", background_color), ("css_class", .str uid)] extra }
  match Ring.setSize w size with
  | .error e => .error e
  | .ok w =>
    match Ring.setBorder w border with
    | .error e => .error e
    | .ok w =>
      match Ring.setMargin w margin with
      | .error e => .error e
      | .ok w => .ok (render (setBackgroundColor (setColor w color) background_color))

/-- The initial `css_params` dict of a `Ring(size=q, color=c,
background_color=b)` before any setter has run. -/
def ringBag0 (u : String) (q : ℚ) (c b : String) : Bag :=
  [("size", .num q), ("color", .str c), ("border", .none),
   ("background_color", .str b), ("css_class", .str u)]

/-- The widget state of such a `Ring` just before the `size` setter runs. -/
def ringW0 (u : String) (q : ℚ) (c b : String) : Widget :=
  { css := ringCss, html := ringHtml, uid := u, extra := [],
    css_params := ringBag0 u q c b }

/-- Its `css_params` after the `size` setter has merged `compute_size`. -/
def ringBag1 (u : String) (q : ℚ) (c b : String) : Bag :=
  [("size", .num q), ("color", .str c), ("border", .none),
   ("background_color", .str b), ("css_class", .str u),
   ("inner_width", .num (q * (4/5))), ("inner_height", .num (q * (4/5))),
   ("width", .num q), ("height", .num q)]

/-- The widget state after the `size` setter, before its re-render. -/
def ringW1pre (u : String) (q : ℚ) (c b : String) : Widget :=
  { css := ringCss, html := ringHtml, uid := u, extra := [],
    css_params := ringBag1 u q c b, sizeAttr := .num q }

/-- The widget state after the `size` setter. -/
def ringW1 (u : String) (q : ℚ) (c b : String) : Widget :=
  render (ringW1pre u q c b)

/-- Its `css_params` after the `border` setter (default `None` border). -/
def ringBag2 (u : String) (q : ℚ) (c b : String) : Bag :=
  [("size", .num q), ("color", .str c), ("border", .num (q * (4/5) * (1/10))),
   ("background_color", .str b), ("css_class", .str u),
   ("inner_width", .num (q * (4/5))), ("inner_height", .num (q * (4/5))),
   ("width", .num q), ("height", .num q)]

/-- The widget state after the `border` setter, before its re-render. -/
def ringW2pre (u : String) (q : ℚ) (c b : String) : Widget :=
  { css := ringCss, html := ringHtml, uid := u, extra := [],
    css_params := ringBag2 u q c b, sizeAttr := .num q,
    borderAttr := .num (q * (4/5) * (1/10)) }

/-- The widget state after the `border` setter. -/
def ringW2 (u : String) (q : ℚ) (c b : String) : Widget :=
  render (ringW2pre u q c b)

/-- The final `css_params` of `Ring(size=q, color=c, background_color=b)`
(with default `None` border and margin). -/
def ringFinalBag (u : String) (q : ℚ) (c b : String) : Bag :=
  [("size", .num q), ("color", .str c), ("border", .num (q * (4/5) * (1/10))),
   ("background_color", .str b), ("css_class", .str u),
   ("inner_width", .num (q * (4/5))), ("inner_height", .num (q * (4/5))),
   ("width", .num q), ("height", .num q), ("margin", .num (q * (1/10)))]

/-- The widget state after the `margin` setter, before its re-render
(color and background setters still pending). -/
def ringW3pre (u : String) (q : ℚ) (c b : String) : Widget :=
  { css := ringCss, html := ringHtml, uid := u, extra := [],
    css_params := ringFinalBag u q c b, sizeAttr := .num q,
    borderAttr := .num (q * (4/5) * (1/10)), marginAttr := .num (q * (1/10)) }

/-- The widget state after the `margin` setter (color and background
setters still pending). -/
def ringW3 (u : String) (q : ℚ) (c b : String) : Widget :=
  render (ringW3pre u q c b)

/-- The fully constructed widget, before its final re-render. -/
def ringWidgetPre (u : String) (q : ℚ) (c b : String) : Widget :=
  { css := ringCss, html := ringHtml, uid := u, extra := [],
    css_params := ringFinalBag u q c b, sizeAttr := .num q,
    borderAttr := .num (q * (4/5) * (1/10)), marginAttr := .num (q * (1/10)),
    colorAttr := .str c, bgAttr := .str b }

/-- The fully constructed `Ring(size=q, color=c, background_color=b)`
(for positive `q`; see `ring_init_eq`). -/
def ringWidget (u : String) (q : ℚ) (c b : String) : Widget :=
  render (ringWidgetPre u q c b)

/-- A minimal widget state whose bag carries `inner_height = 10`, used to
evaluate the border rules at a concrete reference dimension. -/
def borderTestW : Widget :=
  { css := "", html := "", uid := "u", extra := [],
    css_params := [("inner_height", .num 10)] }

/-- The `Ring(size=20)` instance used in the C6 counterexample. -/
def cexW : Widget := ringWidget "a0" 20 "black" ""

/-- The state after the internal size re-assignment of the first
`setMargin(3)` call on `cexW`. -/
def cexX1 : Widget :=
  render { cexW with
    log := cexW.log ++ ["margin overfitted"],
    css_params := mergeBag cexW.css_params
      [("inner_width", .num ((20 * (4/5) + 2 * 3) * (4/5))),
       ("inner_height", .num ((20 * (4/5) + 2 * 3) * (4/5))),
       ("width", .num (20 * (4/5) + 2 * 3)),
       ("height", .num (20 * (4/5) + 2 * 3)),
       ("size", .num (20 * (4/5) + 2 * 3))],
    sizeAttr := .num (20 * (4/5) + 2 * 3) }

/-- The state after the first `setMargin(3)` call on `cexW`. -/
def cexW1 : Widget :=
  render { cexX1 with
    css_params := mergeBag cexX1.css_params [("margin", .num 3)],
    marginAttr := .num 3 }

/-- The Ring dimension invariant: the bag's `width`, `height` and `size`
all equal the stored size `q`, and both inner dimensions equal `q * 0.8`. -/
def RingInv (w : Widget) : Prop :=
  ∃ q : ℚ, w.sizeAttr = .num q ∧
    lookupBag w.css_params "size" = some (.num q) ∧
    lookupBag w.css_params "width" = some (.num q) ∧
    lookupBag w.css_params "height" = some (.num q) ∧
    lookupBag w.css_params "inner_width" = some (.num (q * (4/5))) ∧
    lookupBag w.css_params "inner_height" = some (.num (q * (4/5)))

/-- A fragment of the rendered output: either a literal string or an
occurrence of the widget's unique scoping id. -/
inductive Seg where
  | lit (s : String)
  | uid
  deriving DecidableEq

/-- Assemble the fragments with a given unique id. -/
def flattenSegs (u : String) : List Seg → String
  | [] => ""
  | .lit s :: rest => s ++ flattenSegs u rest
  | .uid :: rest => u ++ flattenSegs u rest

/-- The fragment a template piece renders to: the `css_class` placeholder
is the unique id, everything else is a literal. -/
def pieceSeg (bag : Bag) : Piece → Seg
  | .lit s => .lit s
  | .ph n => if n == "css_class" then .uid else .lit (substPiece bag (.ph n))

def bagSegs (bag : Bag) (ps : List Piece) : List Seg :=
  ps.map (pieceSeg bag)

/-- `ringCss` split into literal chunks and placeholders. -/
def ringCssPieces : List Piece :=
  [.lit "\n        .",
   .ph "css_class",
   .lit " \x7b\n          display: inline-block;\n          position: relative;\n          width: ",
   .ph "width",
   .lit "px;\n          height: ",
   .ph "height",
   .lit "px;\n        \x7d\n        .",
   .ph "css_class",
   .lit " div \x7b\n          box-sizing: border-box;\n          display: block;\n          position: absolute;\n          width: ",
   .ph "inner_width",
   .lit "px;\n          height: ",
   .ph "inner_height",
   .lit "px;\n          margin: ",
   .ph "margin",
   .lit "px;\n          border: ",
   .ph "border",
   .lit "px solid ",
   .ph "color",
   .lit ";\n          border-radius: 50%;\n          animation: ",
   .ph "css_class",
   .lit " 1.2s cubic-bezier(0.5, 0, 0.5, 1) infinite;\n          border-color: ",
   .ph "color",
   .lit " transparent transparent transparent;\n          background-color: ",
   .ph "background_color",
   .lit ";\n        \x7d\n        .",
   .ph "css_class",
   .lit " div:nth-child(1) \x7b\n          animation-delay: -0.45s;\n        \x7d\n        .",
   .ph "css_class",
   .lit " div:nth-child(2) \x7b\n          animation-delay: -0.3s;\n        \x7d\n        .",
   .ph "css_class",
   .lit " div:nth-child(3) \x7b\n          animation-delay: -0.15s;\n        \x7d\n        @keyframes ",
   .ph "css_class",
   .lit " \x7b\n          0% \x7b\n            transform: rotate(0deg);\n          \x7d\n          100% \x7b\n            transform: rotate(360deg);\n          \x7d\n        \x7d\n        "]

def tmplO0 : String := "\n        <head>\n          <style>\n            "

def tmplO1 : String := "\n          </style>\n        </head>\n        <body>\n          <div class=\""

def tmplO2 : String := "\">\n            "

def tmplO3 : String := "\n          </div>\n        </body>\n        "

/-- The wrapper template split into chunks and placeholders. -/
def templatePieces : List Piece :=
  [.lit tmplO0, .ph "css", .lit tmplO1, .ph "css_class",
   .lit tmplO2, .ph "html", .lit tmplO3]

/-- The rendered markup of a `Ring(size=q, color=c, background_color=b)`,
decomposed into fragments that carry the unique id only at the `css_class`
insertion points (the fragment list itself does not depend on the id). -/
def ringSegs (q : ℚ) (c b : String) : List Seg :=
  Seg.lit tmplO0 :: (bagSegs (ringFinalBag "" q c b) ringCssPieces ++
    [Seg.lit tmplO1, Seg.uid, Seg.lit tmplO2, Seg.lit ringHtml, Seg.lit tmplO3])

/-- Replace every (left-to-right, non-overlapping) occurrence of `p` by
`q`; the fuel only makes the recursion structural. -/
def replaceAllAux (p q : List Char) : ℕ → List Char → List Char
  | _, [] => []
  | 0, l => l
  | fuel + 1, c :: cs =>
    if p.isPrefixOf (c :: cs) && !p.isEmpty then
      q ++ replaceAllAux p q fuel (List.drop p.length (c :: cs))
    else c :: replaceAllAux p q fuel cs

/-- Replace every occurrence of the substring `p` in `s` by `q` (the
textual substitution the claim speaks about). -/
def strReplace (s p q : String) : String :=
  String.mk (replaceAllAux p.data q.data s.data.length s.data)

/-- `segsIsolated p u segs`: in the markup assembled from `segs` with the
id `u`, no occurrence of the character string `p` starts inside a literal
fragment (so when `p` is the id itself, its only occurrences in the markup
are the id insertion points).  This is the precise sense in which the id
occurs in the output only as the scoping identifier, and it is decidable,
so it can be checked on any concrete instance.  It holds for the ids the
program generates (`'a' + str(uuid4())`, `loading.py:59`): none of the
fixed 37-character ids can occur in, or straddle, the fixed template
fragments, whose only long runs of id-alphabet characters are short CSS
words. -/
def segsIsolated (p : List Char) (u : String) : List Seg → Bool
  | [] => true
  | Seg.uid :: rest => segsIsolated p u rest
  | Seg.lit s :: rest =>
    ((List.range s.data.length).all (fun i =>
      !(p.isPrefixOf (List.drop i (s.data ++ (flattenSegs u rest).data)))))
      && segsIsolated p u rest

theorem len_dropWhile_le (p : Char → Bool) :
    ∀ l : List Char, (l.dropWhile p).length ≤ l.length := by
  intro l
  induction l with
  | nil => simp [List.dropWhile]
  | cons c cs ih =>
    by_cases h : p c
    · simp only [List.dropWhile_cons_of_pos h]
      exact Nat.le_succ_of_le ih
    · simp [List.dropWhile_cons_of_neg h]

theorem safeSubAux_fuel (bag : Bag) :
    ∀ f₁ f₂ l, l.length ≤ f₁ → l.length ≤ f₂ →
      safeSubAux bag f₁ l = safeSubAux bag f₂ l := by
  intro f₁
  induction f₁ with
  | zero =>
    intro f₂ l h1 _
    have hl : l = [] := List.eq_nil_of_length_eq_zero (Nat.le_zero.mp h1)
    subst hl
    cases f₂ <;> simp [safeSubAux]
  | succ g ih =>
    intro f₂ l h1 h2
    cases l with
    | nil => cases f₂ <;> simp [safeSubAux]
    | cons c rest =>
      cases f₂ with
      | zero => simp at h2
      | succ h =>
        have hrest : rest.length ≤ g := by simpa using h1
        have hrest' : rest.length ≤ h := by simpa using h2
        simp only [safeSubAux]
        by_cases hc : c = '$'
        · simp only [if_pos hc]
          cases rest with
          | nil => rfl
          | cons d rest2 =>
            have hr2 : rest2.length ≤ g := Nat.le_of_succ_le (by simpa using hrest)
            have hr2' : rest2.length ≤ h := Nat.le_of_succ_le (by simpa using hrest')
            have hdw : (rest2.dropWhile isIdCont).length ≤ rest2.length :=
              len_dropWhile_le isIdCont rest2
            have htl : (rest2.dropWhile isIdCont).tail.length ≤ (rest2.dropWhile isIdCont).length := by
              rw [List.length_tail]; omega
            by_cases hd : d = '$'
            · simp only [if_pos hd]
              rw [ih h rest2 hr2 hr2']
            · simp only [if_neg hd]
              by_cases hbr : d = '\x7b'
              · simp only [if_pos hbr]
                split
                · cases hv : lookupStr bag (String.mk (rest2.takeWhile isIdCont)) with
                  | some v =>
                    simp only [hv]
                    rw [ih h _ (le_trans (le_trans htl hdw) hr2)
                      (le_trans (le_trans htl hdw) hr2')]
                  | none =>
                    simp only [hv]
                    rw [ih h _ (le_trans (le_trans htl hdw) hr2)
                      (le_trans (le_trans htl hdw) hr2')]
                · rw [ih h rest2 hr2 hr2']
              · simp only [if_neg hbr]
                by_cases hid : isIdStart d = true
                · simp only [if_pos hid]
                  cases hv : lookupStr bag (String.mk (d :: rest2.takeWhile isIdCont)) with
                  | some v =>
                    simp only [hv]
                    rw [ih h _ (le_trans hdw hr2) (le_trans hdw hr2')]
                  | none =>
                    simp only [hv]
                    rw [ih h _ (le_trans hdw hr2) (le_trans hdw hr2')]
                · simp only [if_neg hid]
                  rw [ih h rest2 hr2 hr2']
        · simp only [if_neg hc]
          rw [ih h rest hrest hrest']

theorem safeSubAux_eq_subL (bag : Bag) (f : ℕ) (l : List Char) (h : l.length ≤ f) :
    safeSubAux bag f l = subL bag l :=
  safeSubAux_fuel bag f l.length l h le_rfl

theorem subL_nil (bag : Bag) : subL bag [] = [] := rfl

theorem subL_copy (bag : Bag) (c : Char) (l : List Char) (hc : c ≠ '$') :
    subL bag (c :: l) = c :: subL bag l := by
  simp [subL, List.length_cons, safeSubAux, hc]

theorem subL_lit (bag : Bag) (s l : List Char) (hs : ∀ c ∈ s, c ≠ '$') :
    subL bag (s ++ l) = s ++ subL bag l := by
  induction s with
  | nil => simp
  | cons c cs ih =>
    have hc : c ≠ '$' := hs c (by simp)
    have ih' := ih (fun x hx => hs x (by simp [hx]))
    simp only [List.cons_append]
    rw [subL_copy bag c (cs ++ l) hc, ih']

theorem safeSubAux_braced_step (bag : Bag) (f : ℕ) (rest2 : List Char) :
    safeSubAux bag (f + 1) ('$' :: '\x7b' :: rest2) =
      (if rest2.takeWhile isIdCont ≠ [] &&
          isIdStart ((rest2.takeWhile isIdCont).headD 'x') &&
          (rest2.dropWhile isIdCont).headD 'x' == '\x7d' then
        match lookupStr bag (String.mk (rest2.takeWhile isIdCont)) with
        | some v => v.data ++ safeSubAux bag f (rest2.dropWhile isIdCont).tail
        | Option.none =>
          '$' :: '\x7b' :: (rest2.takeWhile isIdCont ++
            '\x7d' :: safeSubAux bag f (rest2.dropWhile isIdCont).tail)
      else '$' :: '\x7b' :: safeSubAux bag f rest2) := rfl

theorem subL_braced (bag : Bag) (name l : List Char) (hv : validIdent name = true) :
    subL bag ('$' :: '\x7b' :: (name ++ '\x7d' :: l)) =
      (match lookupStr bag (String.mk name) with
       | some v => v.data ++ subL bag l
       | Option.none => '$' :: '\x7b' :: (name ++ '\x7d' :: subL bag l)) := by
  match name, hv with
  | n0 :: ns, hv =>
    have hstart : isIdStart n0 = true := by
      simp [validIdent] at hv; exact hv.1
    have hall : ∀ c ∈ n0 :: ns, isIdCont c = true := by
      intro c hcm
      simp [validIdent] at hv
      rcases List.mem_cons.mp hcm with h1 | h1
      · subst h1; simp [isIdCont, hv.1]
      · exact hv.2 c h1
    have htake : ((n0 :: ns) ++ '\x7d' :: l).takeWhile isIdCont = n0 :: ns := by
      rw [List.takeWhile_append_of_pos hall]
      simp [List.takeWhile_cons, isIdCont, isIdStart]
    have hdrop : ((n0 :: ns) ++ '\x7d' :: l).dropWhile isIdCont = '\x7d' :: l := by
      rw [List.dropWhile_append]
      simp only [List.dropWhile_eq_nil_iff.mpr hall]
      simp [List.dropWhile_cons, isIdCont, isIdStart]
    have hl3 : ('$' :: '\x7b' :: ((n0 :: ns) ++ '\x7d' :: l)).length
        = (((n0 :: ns) ++ '\x7d' :: l).length + 1) + 1 := by simp
    rw [subL, hl3, safeSubAux_braced_step]
    rw [htake, hdrop]
    simp only [List.headD_cons, hstart, ne_eq, reduceCtorEq, not_false_eq_true,
      decide_True, Bool.true_and, beq_self_eq_true, Bool.and_true, if_true,
      List.tail_cons]
    have hfl : l.length ≤ ((n0 :: ns) ++ '\x7d' :: l).length + 1 := by
      simp [List.length_append]; omega
    cases hlook : lookupStr bag (String.mk (n0 :: ns)) with
    | some v =>
      simp only [hlook]
      rw [safeSubAux_fuel bag _ l.length l hfl le_rfl]
      rfl
    | none =>
      simp only [hlook]
      rw [safeSubAux_fuel bag _ l.length l hfl le_rfl]
      rfl

theorem subL_pieces (bag : Bag) (ps : List Piece) (h : ∀ p ∈ ps, pieceOk p = true) :
    subL bag (renderPieces ps).data = (strConcat (ps.map (substPiece bag))).data := by
  induction ps with
  | nil => simp [renderPieces, strConcat, subL_nil]
  | cons p ps ih =>
    have hp := h p (by simp)
    have ih' := ih (fun x hx => h x (by simp [hx]))
    cases p with
    | lit s =>
      simp only [renderPieces, List.map_cons, strConcat, String.data_append,
        Piece.renderT, substPiece] at *
      rw [subL_lit bag s.data _ (by simpa [pieceOk, List.all_eq_true] using hp)]
      simp [ih']
    | ph n =>
      simp only [renderPieces, List.map_cons, strConcat, String.data_append,
        Piece.renderT, substPiece] at *
      have hdata : ['$', '\x7b'] ++ n.data ++ ['\x7d'] ++ (strConcat (ps.map Piece.renderT)).data =
          '$' :: '\x7b' :: (n.data ++ '\x7d' :: (strConcat (ps.map Piece.renderT)).data) := by
        simp
      rw [hdata, subL_braced bag n.data _ (by simpa [pieceOk] using hp)]
      have hmk : String.mk n.data = n := rfl
      rw [hmk]
      cases hlook : lookupStr bag n with
      | some v => simp [hlook, ih']
      | none => simp [hlook, ih', String.data_append]

theorem setSize_num (w : Widget) (n : ℚ) :
    Ring.setSize w (.num n) =
      .ok (render { w with
        css_params := mergeBag w.css_params
          [("inner_width", .num (n * (4/5))), ("inner_height", .num (n * (4/5))),
           ("width", .num n), ("height", .num n), ("size", .num n)],
        sizeAttr := .num n }) := rfl

theorem parse_margin_falsy (w : Widget) (v : PyVal) (s : ℚ)
    (hv : v.isFalsy = true) (hs : w.sizeAttr = .num s) :
    Ring.parse_margin w v = .ok (s * (1/10)) := by
  unfold Ring.parse_margin
  rw [hv, hs]
  rfl

theorem parse_margin_num (w : Widget) (m : ℚ) (hm0 : m ≠ 0) :
    Ring.parse_margin w (.num m) = .ok m := by
  have hfal : (PyVal.num m).isFalsy = false := by simp [PyVal.isFalsy, hm0]
  unfold Ring.parse_margin
  rw [hfal]
  rfl

theorem parse_margin_parse_err (w : Widget) (s : String)
    (hs : s ≠ "") (hp : parseInt s = Option.none) :
    Ring.parse_margin w (.str s) = .error "ValueError" := by
  have hfal : (PyVal.str s).isFalsy = false := by simp [PyVal.isFalsy, hs]
  unfold Ring.parse_margin
  rw [hfal]
  simp only [Bool.false_eq_true, if_false]
  rw [hp]

theorem compute_margin_falsy (w : Widget) (v : PyVal) (s : ℚ)
    (hv : v.isFalsy = true) (hs : w.sizeAttr = .num s) :
    Ring.compute_margin w v = .ok (w, s * (1/10)) := by
  unfold Ring.compute_margin
  rw [parse_margin_falsy w v s hv hs, hs]
  dsimp only
  rw [if_neg (lt_irrefl (s * (1/10)))]

theorem ring_init_eq (u : String) (q : ℚ) (c b : String) (hq : 0 < q) :
    Ring.init u (.num q) (.str c) (.str b) .none .none =
      .ok (ringWidget u q c b) := by
  have h1 : Ring.init u (.num q) (.str c) (.str b) .none .none =
      (match Ring.setBorder (ringW1 u q c b) .none with
       | .error e => .error e
       | .ok w =>
         match Ring.setMargin w .none with
         | .error e => .error e
         | .ok w =>
           .ok (render (setBackgroundColor (setColor w (.str c)) (.str b)))) := rfl
  have hb : Ring.compute_border (ringW1 u q c b) .none =
      .ok (.num (if q * (4/5) * (1/10) > q * (4/5) * (1/2)
           then q * (4/5) * (1/2)
           else q * (4/5) * (1/10))) := rfl
  have hble : ¬ (q * (4/5) * (1/10) > q * (4/5) * (1/2)) := by nlinarith
  rw [if_neg hble] at hb
  have h2 : Ring.setBorder (ringW1 u q c b) .none = .ok (ringW2 u q c b) := by
    unfold Ring.setBorder
    rw [hb]
    rfl
  have hm : Ring.compute_margin (ringW2 u q c b) .none =
      .ok (ringW2 u q c b, q * (1/10)) :=
    compute_margin_falsy _ _ q rfl rfl
  have h3 : Ring.setMargin (ringW2 u q c b) .none = .ok (ringW3 u q c b) := by
    unfold Ring.setMargin
    rw [hm]
    rfl
  have h4 : render (setBackgroundColor (setColor (ringW3 u q c b) (.str c)) (.str b)) =
      ringWidget u q c b := rfl
  rw [h1, h2]
  dsimp only
  rw [h3]
  dsimp only
  rw [h4]

theorem bool_ne_true {b : Bool} (h : b = false) : ¬ b = true := by
  simp [h]

theorem bool_eq_false {b : Bool} (h : ¬ b = true) : b = false := by
  simp at h; exact h

theorem lookupBag_cons (p : String × PyVal) (bag : Bag) (k : String) :
    lookupBag (p :: bag) k =
      if (p.1 == k) = true then some p.2 else lookupBag bag k := by
  rw [lookupBag, List.find?_cons]
  by_cases h : (p.1 == k) = true
  · simp [h]
  · simp [h, lookupBag]

theorem lookupBag_map_set (k : String) (v : PyVal) :
    ∀ bag : Bag, bag.any (fun p => p.1 == k) = true →
      lookupBag (bag.map fun p => if p.1 == k then (k, v) else p) k = some v := by
  intro bag
  induction bag with
  | nil => simp
  | cons p bag ih =>
    intro h
    rw [List.any_cons] at h
    cases hp : (p.1 == k) with
    | true =>
      simp only [List.map_cons, if_pos hp]
      rw [lookupBag_cons]
      simp
    | false =>
      rw [hp, Bool.false_or] at h
      have hneg : ¬ ((p.1 == k) = true) := bool_ne_true hp
      simp only [List.map_cons, if_neg hneg]
      rw [lookupBag_cons, if_neg hneg]
      exact ih h

theorem lookupBag_append_one (k : String) (v : PyVal) :
    ∀ bag : Bag, bag.any (fun p => p.1 == k) = false →
      lookupBag (bag ++ [(k, v)]) k = some v := by
  intro bag
  induction bag with
  | nil =>
    intro h
    rw [List.nil_append, lookupBag_cons]
    simp
  | cons p bag ih =>
    intro h
    rw [List.any_cons] at h
    cases hp : (p.1 == k) with
    | true => rw [hp, Bool.true_or] at h; exact absurd h (by simp)
    | false =>
      rw [hp, Bool.false_or] at h
      have hneg : ¬ ((p.1 == k) = true) := bool_ne_true hp
      rw [List.cons_append, lookupBag_cons, if_neg hneg]
      exact ih h

/-- After `d[k] = v`, looking up `k` gives `v`. -/
theorem lookupBag_updateBag_self (bag : Bag) (k : String) (v : PyVal) :
    lookupBag (updateBag bag k v) k = some v := by
  unfold updateBag
  by_cases h : bag.any (fun p => p.1 == k)
  · rw [if_pos h]; exact lookupBag_map_set k v bag h
  · rw [if_neg h]
    exact lookupBag_append_one k v bag (bool_eq_false h)

theorem lookupBag_map_ne (k k' : String) (v : PyVal) (h : k' ≠ k) :
    ∀ bag : Bag,
      lookupBag (bag.map fun p => if p.1 == k' then (k', v) else p) k
        = lookupBag bag k := by
  intro bag
  induction bag with
  | nil => rfl
  | cons p bag ih =>
    have hkk : ¬ ((k' == k) = true) := by simp [h]
    cases hp : (p.1 == k') with
    | true =>
      have hpv : p.1 = k' := by simpa using hp
      have hpk : ¬ ((p.1 == k) = true) := by simp [hpv, h]
      simp only [List.map_cons, if_pos hp]
      rw [lookupBag_cons, lookupBag_cons, if_neg (by simpa using hkk),
        if_neg hpk]
      exact ih
    | false =>
      have hneg : ¬ ((p.1 == k') = true) := bool_ne_true hp
      simp only [List.map_cons, if_neg hneg]
      rw [lookupBag_cons, lookupBag_cons]
      by_cases hpk : (p.1 == k) = true
      · rw [if_pos hpk, if_pos hpk]
      · rw [if_neg hpk, if_neg hpk]
        exact ih

theorem lookupBag_append_ne (k k' : String) (v : PyVal) (h : k' ≠ k) :
    ∀ bag : Bag, lookupBag (bag ++ [(k', v)]) k = lookupBag bag k := by
  intro bag
  induction bag with
  | nil =>
    have hkk : ¬ ((k' == k) = true) := by simp [h]
    rw [List.nil_append, lookupBag_cons, if_neg (by simpa using hkk)]
  | cons p bag ih =>
    rw [List.cons_append, lookupBag_cons, lookupBag_cons]
    by_cases hp : (p.1 == k) = true
    · rw [if_pos hp, if_pos hp]
    · rw [if_neg hp, if_neg hp]
      exact ih

/-- `d[k'] = v` does not change the binding of any other key `k`. -/
theorem lookupBag_updateBag_ne (bag : Bag) (k k' : String) (v : PyVal)
    (h : k' ≠ k) :
    lookupBag (updateBag bag k' v) k = lookupBag bag k := by
  unfold updateBag
  by_cases hany : bag.any (fun p => p.1 == k')
  · rw [if_pos hany]; exact lookupBag_map_ne k k' v h bag
  · rw [if_neg hany]; exact lookupBag_append_ne k k' v h bag

/-- C5: for every numeric size `n`, `Ring.compute_size` returns a dict with
exactly the five entries `inner_width = inner_height = n * 0.8` and
`width = height = size = n` (in the source's insertion order), and the
`size` setter merges all five keys into `css_params`. -/
theorem C5_ring_compute_size (n : ℚ) (w w' : Widget)
    (h : Ring.setSize w (.num n) = .ok w') :
    Ring.compute_size (.num n) =
      .ok [("inner_width", .num (n * (4/5))), ("inner_height", .num (n * (4/5))),
           ("width", .num n), ("height", .num n), ("size", .num n)] ∧
    lookupBag w'.css_params "width" = some (.num n) ∧
    lookupBag w'.css_params "height" = some (.num n) ∧
    lookupBag w'.css_params "inner_width" = some (.num (n * (4/5))) ∧
    lookupBag w'.css_params "inner_height" = some (.num (n * (4/5))) ∧
    lookupBag w'.css_params "size" = some (.num n) := by
  rw [setSize_num] at h
  have hw : w' = render { w with
      css_params := mergeBag w.css_params
        [("inner_width", .num (n * (4/5))), ("inner_height", .num (n * (4/5))),
         ("width", .num n), ("height", .num n), ("size", .num n)],
      sizeAttr := .num n } := by
    cases h
    rfl
  subst hw
  have hbag : (render { w with
      css_params := mergeBag w.css_params
        [("inner_width", .num (n * (4/5))), ("inner_height", .num (n * (4/5))),
         ("width", .num n), ("height", .num n), ("size", .num n)],
      sizeAttr := .num n }).css_params =
      updateBag (updateBag (updateBag (updateBag (updateBag
        w.css_params "inner_width" (.num (n * (4/5))))
        "inner_height" (.num (n * (4/5))))
        "width" (.num n)) "height" (.num n)) "size" (.num n) := rfl
  refine ⟨rfl, ?_, ?_, ?_, ?_, ?_⟩
  · rw [hbag, lookupBag_updateBag_ne _ _ _ _ (by decide),
      lookupBag_updateBag_ne _ _ _ _ (by decide), lookupBag_updateBag_self]
  · rw [hbag, lookupBag_updateBag_ne _ _ _ _ (by decide),
      lookupBag_updateBag_self]
  · rw [hbag, lookupBag_updateBag_ne _ _ _ _ (by decide),
      lookupBag_updateBag_ne _ _ _ _ (by decide),
      lookupBag_updateBag_ne _ _ _ _ (by decide),
      lookupBag_updateBag_ne _ _ _ _ (by decide), lookupBag_updateBag_self]
  · rw [hbag, lookupBag_updateBag_ne _ _ _ _ (by decide),
      lookupBag_updateBag_ne _ _ _ _ (by decide),
      lookupBag_updateBag_ne _ _ _ _ (by decide), lookupBag_updateBag_self]
  · rw [hbag, lookupBag_updateBag_self]

theorem C5_ring_compute_size_witness :
    Ring.setSize (ringW0 "a0" 20 "black" "") (.num 20) =
      .ok (ringW1 "a0" 20 "black" "") ∧
    lookupBag (ringW1 "a0" 20 "black" "").css_params "inner_height" =
      some (.num 16) ∧
    lookupBag (ringW1 "a0" 20 "black" "").css_params "width" =
      some (.num 20) := by
  have h : Ring.setSize (ringW0 "a0" 20 "black" "") (.num 20) =
      .ok (ringW1 "a0" 20 "black" "") := rfl
  have hc := C5_ring_compute_size 20 _ _ h
  refine ⟨h, ?_, hc.2.1⟩
  have h2 := hc.2.2.2.2.1
  norm_num at h2
  exact h2

theorem compute_border_falsy (w : Widget) (v : PyVal) (d : ℚ)
    (hih : lookupBag w.css_params "inner_height" = some (.num d))
    (hv : v.isFalsy = true) :
    Ring.compute_border w v =
      .ok (.num (if d * (1/10) > d * (1/2) then d * (1/2) else d * (1/10))) := by
  unfold Ring.compute_border
  rw [hih, hv]
  rfl

theorem compute_border_num (w : Widget) (d q : ℚ)
    (hih : lookupBag w.css_params "inner_height" = some (.num d))
    (hq : q ≠ 0) :
    Ring.compute_border w (.num q) =
      .ok (.num (if q > d * (1/2) then d * (1/2) else q)) := by
  have hfal : PyVal.isFalsy (.num q) = false := by
    simp [PyVal.isFalsy, hq]
  unfold Ring.compute_border
  rw [hih, hfal]
  rfl

theorem compute_border_pct (w : Widget) (d : ℚ) (s : String) (p : ℚ)
    (hih : lookupBag w.css_params "inner_height" = some (.num d))
    (hs : parseFloat s = some p) :
    Ring.compute_border w (.str (s ++ "%")) =
      .ok (.num (if d * (p / 100) > d * (1/2) then d * (1/2)
                 else d * (p / 100))) := by
  have hfal : PyVal.isFalsy (.str (s ++ "%")) = false := by
    rw [PyVal.isFalsy, beq_eq_false_iff_ne]
    intro he
    have hd := congrArg String.data he
    simp [String.data_append] at hd
  have htake : (String.data (s ++ "%")).reverse.take 1 = ['%'] := by
    simp [String.data_append]
  have hdrop : ((String.data (s ++ "%")).reverse.drop 1).reverse = s.data := by
    simp [String.data_append]
  unfold Ring.compute_border
  rw [hih, hfal]
  simp only [Bool.false_eq_true, if_false, htake, hdrop, if_pos]
  have hmk : String.mk s.data = s := rfl
  rw [hmk, hs]
  rfl

theorem compute_border_px (w : Widget) (d : ℚ) (s : String) (p : ℚ)
    (hih : lookupBag w.css_params "inner_height" = some (.num d))
    (hs : parseFloat s = some p) :
    Ring.compute_border w (.str (s ++ "px")) =
      .ok (.num (if p > d * (1/2) then d * (1/2) else p)) := by
  have hfal : PyVal.isFalsy (.str (s ++ "px")) = false := by
    rw [PyVal.isFalsy, beq_eq_false_iff_ne]
    intro he
    have hd := congrArg String.data he
    simp [String.data_append] at hd
  have htake1 : (String.data (s ++ "px")).reverse.take 1 = ['x'] := by
    simp [String.data_append]
  have htake2 : (String.data (s ++ "px")).reverse.take 2 = ['x', 'p'] := by
    simp [String.data_append]
  have hdrop : ((String.data (s ++ "px")).reverse.drop 2).reverse = s.data := by
    simp [String.data_append]
  have hne1 : ¬ ((String.data (s ++ "px")).reverse.take 1 = ['%']) := by
    rw [htake1]; decide
  unfold Ring.compute_border
  rw [hih, hfal]
  simp only [Bool.false_eq_true, if_false, if_neg hne1, htake2, hdrop, if_pos]
  have hmk : String.mk s.data = s := rfl
  rw [hmk, hs]
  rfl

theorem clamp_match_le (B : Except String PyVal) (d r : ℚ)
    (h : (match B with
          | .error e => (.error e : Except String PyVal)
          | .ok (.num q) => .ok (.num (if q > d * (1/2) then d * (1/2) else q))
          | .ok _ => (.error "TypeError" : Except String PyVal)) = .ok (.num r)) :
    r ≤ d * (1/2) := by
  rcases B with e | val
  · simp at h
  · rcases val with _ | q | t
    · simp at h
    · simp only [Except.ok.injEq, PyVal.num.injEq] at h
      subst h
      split
      · exact le_rfl
      · linarith [not_lt.mp (by assumption)]
    · simp at h

theorem compute_border_le (w : Widget) (v : PyVal) (d r : ℚ)
    (hih : lookupBag w.css_params "inner_height" = some (.num d))
    (hok : Ring.compute_border w v = .ok (.num r)) :
    r ≤ d * (1/2) := by
  unfold Ring.compute_border at hok
  rw [hih] at hok
  exact clamp_match_le _ d r hok

/-- C1: for the Ring variant with reference dimension
`d = float(css_params['inner_height'])` (here nonnegative): a falsy border
yields `0.1 * d`; a string `p%` yields `(p/100) * d` before clamping; a
string `p px` yields `p` before clamping; a nonzero plain number `n` yields
`n` before clamping; every numeric result is clamped to at most `0.5 * d`;
and in particular `"50%"` and `"120%"` both yield exactly `0.5 * d`. -/
theorem C1_ring_setBorder (w : Widget) (d : ℚ)
    (hih : lookupBag w.css_params "inner_height" = some (.num d))
    (hd : 0 ≤ d) :
    (∀ v : PyVal, v.isFalsy = true →
        Ring.compute_border w v = .ok (.num (d * (1/10)))) ∧
    (∀ (s : String) (p : ℚ), parseFloat s = some p →
        Ring.compute_border w (.str (s ++ "%")) =
          .ok (.num (if d * (p / 100) > d * (1/2) then d * (1/2)
                     else d * (p / 100)))) ∧
    (∀ (s : String) (p : ℚ), parseFloat s = some p →
        Ring.compute_border w (.str (s ++ "px")) =
          .ok (.num (if p > d * (1/2) then d * (1/2) else p))) ∧
    (∀ q : ℚ, q ≠ 0 →
        Ring.compute_border w (.num q) =
          .ok (.num (if q > d * (1/2) then d * (1/2) else q))) ∧
    (∀ (v : PyVal) (r : ℚ), Ring.compute_border w v = .ok (.num r) →
        r ≤ d * (1/2)) ∧
    Ring.compute_border w (.str "50%") = .ok (.num (d * (1/2))) ∧
    Ring.compute_border w (.str "120%") = .ok (.num (d * (1/2))) := by
  have h50 : parseFloat "50" = some 50 := by
    rw [parseFloat, show parseDec "50" = some ⟨false, 50, 0, 0⟩ from by decide]
    simp [decVal]
  have h120 : parseFloat "120" = some 120 := by
    rw [parseFloat, show parseDec "120" = some ⟨false, 120, 0, 0⟩ from by decide]
    simp [decVal]
  refine ⟨?_, ?_, ?_, ?_, ?_, ?_, ?_⟩
  · intro v hv
    rw [compute_border_falsy w v d hih hv, if_neg (by intro hc; nlinarith)]
  · intro s p hs
    exact compute_border_pct w d s p hih hs
  · intro s p hs
    exact compute_border_px w d s p hih hs
  · intro q hq
    exact compute_border_num w d q hih hq
  · intro v r hok
    exact compute_border_le w v d r hih hok
  · have h := compute_border_pct w d "50" 50 hih h50
    rw [show ("50" ++ "%") = "50%" from rfl] at h
    rw [h, if_neg (by norm_num), show (50 : ℚ) / 100 = 1/2 from by norm_num]
  · have h := compute_border_pct w d "120" 120 hih h120
    rw [show ("120" ++ "%") = "120%" from rfl] at h
    rcases eq_or_lt_of_le hd with hd0 | hd0
    · rw [h, if_neg (by rw [← hd0]; norm_num)]
      rw [← hd0]
      norm_num
    · rw [h, if_pos (by nlinarith)]

theorem C1_ring_setBorder_witness :
    lookupBag borderTestW.css_params "inner_height" = some (.num 10) ∧
    Ring.compute_border borderTestW .none = .ok (.num 1) ∧
    Ring.compute_border borderTestW (.str "50%") = .ok (.num 5) ∧
    Ring.compute_border borderTestW (.str "120%") = .ok (.num 5) := by
  have hih : lookupBag borderTestW.css_params "inner_height" =
      some (.num 10) := rfl
  have hc := C1_ring_setBorder borderTestW 10 hih (by norm_num)
  have h1 := hc.1 .none rfl
  have h2 := hc.2.2.2.2.2.1
  have h3 := hc.2.2.2.2.2.2
  norm_num at h1 h2 h3
  exact ⟨hih, h1, h2, h3⟩

theorem compute_margin_overflow (w : Widget) (m s ih : ℚ)
    (hm0 : m ≠ 0) (hs : w.sizeAttr = .num s)
    (hih : lookupBag w.css_params "inner_height" = some (.num ih))
    (hover : m > s * (1/10)) :
    Ring.compute_margin w (.num m) =
      .ok (render { w with
        log := w.log ++ ["margin overfitted"],
        css_params := mergeBag w.css_params
          [("inner_width", .num ((ih + 2*m) * (4/5))),
           ("inner_height", .num ((ih + 2*m) * (4/5))),
           ("width", .num (ih + 2*m)), ("height", .num (ih + 2*m)),
           ("size", .num (ih + 2*m))],
        sizeAttr := .num (ih + 2*m) }, m) := by
  unfold Ring.compute_margin
  rw [parse_margin_num w m hm0, hs]
  dsimp only
  rw [if_pos hover, hih]
  dsimp only [pyFloat]
  rw [setSize_num]

theorem setMargin_of_compute (w w₁ : Widget) (v : PyVal) (m : ℚ)
    (h : Ring.compute_margin w v = .ok (w₁, m)) :
    Ring.setMargin w v = .ok (render { w₁ with
      css_params := mergeBag w₁.css_params [("margin", .num m)],
      marginAttr := .num m }) := by
  unfold Ring.setMargin
  rw [h]

/-- Looking up each derived key after merging `Ring.compute_size`'s dict. -/
theorem lookup_merge_size (bag : Bag) (n : ℚ) :
    lookupBag (mergeBag bag
      [("inner_width", .num (n * (4/5))), ("inner_height", .num (n * (4/5))),
       ("width", .num n), ("height", .num n), ("size", .num n)]) "size"
        = some (.num n) ∧
    lookupBag (mergeBag bag
      [("inner_width", .num (n * (4/5))), ("inner_height", .num (n * (4/5))),
       ("width", .num n), ("height", .num n), ("size", .num n)]) "width"
        = some (.num n) ∧
    lookupBag (mergeBag bag
      [("inner_width", .num (n * (4/5))), ("inner_height", .num (n * (4/5))),
       ("width", .num n), ("height", .num n), ("size", .num n)]) "height"
        = some (.num n) ∧
    lookupBag (mergeBag bag
      [("inner_width", .num (n * (4/5))), ("inner_height", .num (n * (4/5))),
       ("width", .num n), ("height", .num n), ("size", .num n)]) "inner_width"
        = some (.num (n * (4/5))) ∧
    lookupBag (mergeBag bag
      [("inner_width", .num (n * (4/5))), ("inner_height", .num (n * (4/5))),
       ("width", .num n), ("height", .num n), ("size", .num n)]) "inner_height"
        = some (.num (n * (4/5))) := by
  have hb : mergeBag bag
      [("inner_width", .num (n * (4/5))), ("inner_height", .num (n * (4/5))),
       ("width", .num n), ("height", .num n), ("size", .num n)] =
      updateBag (updateBag (updateBag (updateBag (updateBag
        bag "inner_width" (.num (n * (4/5))))
        "inner_height" (.num (n * (4/5))))
        "width" (.num n)) "height" (.num n)) "size" (.num n) := rfl
  refine ⟨?_, ?_, ?_, ?_, ?_⟩
  · rw [hb, lookupBag_updateBag_self]
  · rw [hb, lookupBag_updateBag_ne _ _ _ _ (by decide),
      lookupBag_updateBag_ne _ _ _ _ (by decide), lookupBag_updateBag_self]
  · rw [hb, lookupBag_updateBag_ne _ _ _ _ (by decide),
      lookupBag_updateBag_self]
  · rw [hb, lookupBag_updateBag_ne _ _ _ _ (by decide),
      lookupBag_updateBag_ne _ _ _ _ (by decide),
      lookupBag_updateBag_ne _ _ _ _ (by decide),
      lookupBag_updateBag_ne _ _ _ _ (by decide), lookupBag_updateBag_self]
  · rw [hb, lookupBag_updateBag_ne _ _ _ _ (by decide),
      lookupBag_updateBag_ne _ _ _ _ (by decide),
      lookupBag_updateBag_ne _ _ _ _ (by decide), lookupBag_updateBag_self]

/-- C2: for the Ring variant, a numeric margin `m > 0.1 * size` is not
clamped: the stored margin is `m`, the warning `'margin overfitted'` is
printed, and `size` is recomputed as `inner_height + 2*m` (with the
`inner_height` current at the time of the call), so the re-render reflects
the new size; a falsy margin instead defaults to `0.1 * size`. -/
theorem C2_ring_setMargin (w : Widget) (m s ih : ℚ)
    (hs : w.sizeAttr = .num s)
    (hih : lookupBag w.css_params "inner_height" = some (.num ih))
    (hm0 : m ≠ 0) (hover : m > s * (1/10)) :
    (∃ w' : Widget,
      Ring.setMargin w (.num m) = .ok w' ∧
      w'.marginAttr = .num m ∧
      w'.sizeAttr = .num (ih + 2 * m) ∧
      lookupBag w'.css_params "size" = some (.num (ih + 2 * m)) ∧
      lookupBag w'.css_params "margin" = some (.num m) ∧
      w'.log = w.log ++ ["margin overfitted"] ∧
      w'.value = renderValue w') ∧
    (∀ v : PyVal, v.isFalsy = true →
      ∃ w'' : Widget,
        Ring.setMargin w v = .ok w'' ∧
        w''.marginAttr = .num (s * (1/10)) ∧
        w''.sizeAttr = w.sizeAttr) := by
  constructor
  · rw [setMargin_of_compute w _ (.num m) m
      (compute_margin_overflow w m s ih hm0 hs hih hover)]
    refine ⟨_, rfl, rfl, rfl, ?_, ?_, rfl, rfl⟩
    · show lookupBag (updateBag (mergeBag w.css_params
        [("inner_width", .num ((ih + 2*m) * (4/5))),
         ("inner_height", .num ((ih + 2*m) * (4/5))),
         ("width", .num (ih + 2*m)), ("height", .num (ih + 2*m)),
         ("size", .num (ih + 2*m))]) "margin" (.num m)) "size"
        = some (.num (ih + 2 * m))
      rw [lookupBag_updateBag_ne _ _ _ _ (by decide)]
      exact (lookup_merge_size w.css_params (ih + 2*m)).1
    · show lookupBag (updateBag (mergeBag w.css_params
        [("inner_width", .num ((ih + 2*m) * (4/5))),
         ("inner_height", .num ((ih + 2*m) * (4/5))),
         ("width", .num (ih + 2*m)), ("height", .num (ih + 2*m)),
         ("size", .num (ih + 2*m))]) "margin" (.num m)) "margin"
        = some (.num m)
      rw [lookupBag_updateBag_self]
  · intro v hv
    rw [setMargin_of_compute w _ v (s * (1/10))
      (compute_margin_falsy w v s hv hs)]
    exact ⟨_, rfl, rfl, rfl⟩

theorem C2_ring_setMargin_witness :
    (ringWidget "a0" 20 "black" "").sizeAttr = .num 20 ∧
    ((3 : ℚ) > 20 * (1/10)) ∧
    ∃ w' : Widget,
      Ring.setMargin (ringWidget "a0" 20 "black" "") (.num 3) = .ok w' ∧
      w'.sizeAttr = .num 22 ∧
      w'.marginAttr = .num 3 ∧
      w'.log = ["margin overfitted"] := by
  have hs : (ringWidget "a0" 20 "black" "").sizeAttr = .num 20 := rfl
  have hih : lookupBag (ringWidget "a0" 20 "black" "").css_params
      "inner_height" = some (.num (20 * (4/5))) := rfl
  have hover : (3 : ℚ) > 20 * (1/10) := by norm_num
  obtain ⟨w', h1, h2, h3, h4, h5, h6, h7⟩ :=
    (C2_ring_setMargin _ 3 20 (20 * (4/5)) hs hih (by norm_num) hover).1
  have h3' : w'.sizeAttr = .num 22 := by rw [h3]; norm_num
  have h6' : w'.log = ["margin overfitted"] := by
    rw [h6]
    rfl
  exact ⟨hs, hover, w', h1, h3', h2, h6'⟩

/-- C3 counterexample: on a freshly constructed `Ring(size=20)`, setting
the margin to the malformed string `"abc"` does not complete with the
auto-computed default — `int("abc")` raises `ValueError` and the setter
aborts. -/
theorem C3_counterexample :
    Ring.init "a1" (.num 20) (.str "black") (.str "") .none .none =
      .ok (ringWidget "a1" 20 "black" "") ∧
    Ring.setMargin (ringWidget "a1" 20 "black" "") (.str "abc") =
      .error "ValueError" := by
  constructor
  · exact ring_init_eq "a1" 20 "black" "" (by norm_num)
  · rfl

/-- C3 (amended): a margin string that is not an integer literal raises
`ValueError` from `int(...)`; a border string whose suffix is neither `%`
nor `px` is left unparsed as a string, and the clamp comparison between
that string and a number then raises `TypeError`; neither setter completes
with the auto-computed default. -/
theorem C3_malformed_strings_raise :
    (∀ (w : Widget) (s : String), s ≠ "" → parseInt s = Option.none →
      Ring.setMargin w (.str s) = .error "ValueError") ∧
    (∀ (w : Widget) (d : ℚ) (s : String),
      lookupBag w.css_params "inner_height" = some (.num d) → s ≠ "" →
      s.data.reverse.take 1 ≠ ['%'] → s.data.reverse.take 2 ≠ ['x', 'p'] →
      Ring.setBorder w (.str s) = .error "TypeError") := by
  constructor
  · intro w s hs hp
    unfold Ring.setMargin Ring.compute_margin
    rw [parse_margin_parse_err w s hs hp]
  · intro w d s hih hs h1 h2
    have hfal : (PyVal.str s).isFalsy = false := by
      simp [PyVal.isFalsy, hs]
    unfold Ring.setBorder Ring.compute_border
    rw [hih, hfal]
    simp only [Bool.false_eq_true, if_false]
    simp only [if_neg h1, if_neg h2]
    rfl

theorem C3_malformed_strings_raise_witness :
    Ring.setMargin borderTestW (.str "abc") = .error "ValueError" ∧
    Ring.setBorder borderTestW (.str "abc") = .error "TypeError" := by
  constructor
  · exact C3_malformed_strings_raise.1 borderTestW "abc" (by decide) (by decide)
  · exact C3_malformed_strings_raise.2 borderTestW 10 "abc" rfl (by decide)
      (by decide) (by decide)

/-- C10: `setColor` changes only the `color` entry of the bag (and the
rendered value): every other bag key and every other attribute is
unchanged; symmetrically `setBackgroundColor` touches only
`background_color`. -/
theorem C10_setColor_frame (w : Widget) (c : PyVal) (k : String) :
    (k ≠ "color" →
      lookupBag (setColor w c).css_params k = lookupBag w.css_params k) ∧
    (setColor w c).sizeAttr = w.sizeAttr ∧
    (setColor w c).borderAttr = w.borderAttr ∧
    (setColor w c).marginAttr = w.marginAttr ∧
    (setColor w c).bgAttr = w.bgAttr ∧
    (setColor w c).css = w.css ∧
    (setColor w c).html = w.html ∧
    (setColor w c).uid = w.uid ∧
    (setColor w c).log = w.log ∧
    (k ≠ "background_color" →
      lookupBag (setBackgroundColor w c).css_params k
        = lookupBag w.css_params k) ∧
    (setBackgroundColor w c).colorAttr = w.colorAttr ∧
    (setBackgroundColor w c).sizeAttr = w.sizeAttr := by
  refine ⟨?_, rfl, rfl, rfl, rfl, rfl, rfl, rfl, rfl, ?_, rfl, rfl⟩
  · intro hk
    show lookupBag (updateBag w.css_params "color" c) k
      = lookupBag w.css_params k
    exact lookupBag_updateBag_ne _ _ _ _ (Ne.symm hk)
  · intro hk
    show lookupBag (updateBag w.css_params "background_color" c) k
      = lookupBag w.css_params k
    exact lookupBag_updateBag_ne _ _ _ _ (Ne.symm hk)

theorem C10_setColor_frame_witness :
    ("size" : String) ≠ "color" ∧
    lookupBag (setColor borderTestW (.str "red")).css_params "inner_height"
      = lookupBag borderTestW.css_params "inner_height" ∧
    (setColor borderTestW (.str "red")).sizeAttr = borderTestW.sizeAttr ∧
    lookupBag (setBackgroundColor borderTestW (.str "red")).css_params
      "inner_height" = lookupBag borderTestW.css_params "inner_height" := by
  have h := C10_setColor_frame borderTestW (.str "red") "inner_height"
  exact ⟨by decide, h.1 (by decide), h.2.1, h.2.2.2.2.2.2.2.2.2.1 (by decide)⟩

/-- C7: rendering is deterministic — re-running the render on an unchanged
widget produces byte-identical output (the render output is a pure function
of the templates, the unique id and the parameter bag). -/
theorem C7_render_deterministic (w : Widget) :
    renderValue (render w) = renderValue w ∧
    (render (render w)).value = (render w).value :=
  ⟨rfl, rfl⟩

theorem mem_updateBag_key (k : String) (v : PyVal) (b : Bag) :
    ∀ p ∈ updateBag b k v, p.1 = k → p = (k, v) := by
  unfold updateBag
  by_cases hany : b.any (fun p => p.1 == k)
  · rw [if_pos hany]
    intro p hp hpk
    rcases List.mem_map.mp hp with ⟨q, hq, hfq⟩
    by_cases hqk : (q.1 == k) = true
    · rw [if_pos hqk] at hfq
      exact hfq.symm
    · rw [if_neg hqk] at hfq
      subst hfq
      exact absurd (by simp [hpk]) hqk
  · rw [if_neg hany]
    intro p hp hpk
    rcases List.mem_append.mp hp with hp1 | hp1
    · have hnone : ∀ q ∈ b, ¬ (q.1 == k) = true := by
        intro q hq
        have := (List.any_eq_false).mp (bool_eq_false hany) q hq
        simpa using this
      exact absurd (by simp [hpk]) (hnone p hp1)
    · simpa using hp1

theorem mem_updateBag_other (k' : String) (v' : PyVal) (k : String)
    (hkk : k ≠ k') (v : PyVal) (b : Bag)
    (hall : ∀ p ∈ b, p.1 = k → p = (k, v)) :
    ∀ p ∈ updateBag b k' v', p.1 = k → p = (k, v) := by
  unfold updateBag
  by_cases hany : b.any (fun p => p.1 == k')
  · rw [if_pos hany]
    intro p hp hpk
    rcases List.mem_map.mp hp with ⟨q, hq, hfq⟩
    by_cases hqk : (q.1 == k') = true
    · rw [if_pos hqk] at hfq
      subst hfq
      simp at hpk
      exact absurd hpk.symm hkk
    · rw [if_neg hqk] at hfq
      subst hfq
      exact hall q hq hpk
  · rw [if_neg hany]
    intro p hp hpk
    rcases List.mem_append.mp hp with hp1 | hp1
    · exact hall p hp1 hpk
    · have : p = (k', v') := by simpa using hp1
      subst this
      simp at hpk
      exact absurd hpk.symm hkk

theorem any_updateBag_self (k : String) (v : PyVal) (b : Bag) :
    (updateBag b k v).any (fun p => p.1 == k) = true := by
  unfold updateBag
  by_cases hany : b.any (fun p => p.1 == k)
  · rw [if_pos hany]
    rcases List.any_eq_true.mp hany with ⟨q, hq, hqk⟩
    refine List.any_eq_true.mpr ⟨(k, v), List.mem_map.mpr ⟨q, hq, ?_⟩, by simp⟩
    rw [if_pos hqk]
  · rw [if_neg hany]
    exact List.any_eq_true.mpr ⟨(k, v), List.mem_append.mpr (Or.inr (by simp)), by simp⟩

theorem any_updateBag_other (k k' : String) (v' : PyVal) (b : Bag)
    (h : b.any (fun p => p.1 == k) = true) :
    (updateBag b k' v').any (fun p => p.1 == k) = true := by
  unfold updateBag
  rcases List.any_eq_true.mp h with ⟨q, hq, hqk⟩
  by_cases hany : b.any (fun p => p.1 == k')
  · rw [if_pos hany]
    by_cases hqk' : (q.1 == k') = true
    · have hkk' : k' = k := by
        have h1 : q.1 = k := by simpa using hqk
        have h2 : q.1 = k' := by simpa using hqk'
        rw [← h1, h2]
      refine List.any_eq_true.mpr ⟨(k', v'), List.mem_map.mpr ⟨q, hq, ?_⟩, by simp [hkk']⟩
      rw [if_pos hqk']
    · refine List.any_eq_true.mpr ⟨q, List.mem_map.mpr ⟨q, hq, ?_⟩, hqk⟩
      rw [if_neg hqk']
  · rw [if_neg hany]
    exact List.any_eq_true.mpr ⟨q, List.mem_append.mpr (Or.inl hq), hqk⟩

/-- Re-assigning a key that is already bound (everywhere) to the same value
leaves the dict unchanged. -/
theorem updateBag_stable (k : String) (v : PyVal) (b : Bag)
    (hany : b.any (fun p => p.1 == k) = true)
    (hall : ∀ p ∈ b, p.1 = k → p = (k, v)) :
    updateBag b k v = b := by
  unfold updateBag
  rw [if_pos hany]
  have : ∀ p ∈ b, (if p.1 == k then (k, v) else p) = id p := by
    intro p hp
    by_cases hpk : (p.1 == k) = true
    · rw [if_pos hpk, id]
      exact (hall p hp (by simpa using hpk)).symm
    · rw [if_neg hpk, id]
  rw [List.map_congr_left this, List.map_id]

theorem render_render (x : Widget) : render (render x) = render x := rfl

theorem updateBag_idem (b : Bag) (k : String) (v : PyVal) :
    updateBag (updateBag b k v) k v = updateBag b k v :=
  updateBag_stable k v _ (any_updateBag_self k v b) (mem_updateBag_key k v b)

theorem merge_size_stable (R : Bag) (n : ℚ)
    (aiw : R.any (fun p => p.1 == "inner_width") = true)
    (aih : R.any (fun p => p.1 == "inner_height") = true)
    (aw : R.any (fun p => p.1 == "width") = true)
    (ah : R.any (fun p => p.1 == "height") = true)
    (as' : R.any (fun p => p.1 == "size") = true)
    (miw : ∀ p ∈ R, p.1 = "inner_width" → p = ("inner_width", .num (n * (4/5))))
    (mih : ∀ p ∈ R, p.1 = "inner_height" → p = ("inner_height", .num (n * (4/5))))
    (mw : ∀ p ∈ R, p.1 = "width" → p = ("width", .num n))
    (mh : ∀ p ∈ R, p.1 = "height" → p = ("height", .num n))
    (ms : ∀ p ∈ R, p.1 = "size" → p = ("size", .num n)) :
    mergeBag R
      [("inner_width", .num (n * (4/5))), ("inner_height", .num (n * (4/5))),
       ("width", .num n), ("height", .num n), ("size", .num n)] = R := by
  have h0 : mergeBag R
      [("inner_width", .num (n * (4/5))), ("inner_height", .num (n * (4/5))),
       ("width", .num n), ("height", .num n), ("size", .num n)] =
      updateBag (updateBag (updateBag (updateBag (updateBag R
        "inner_width" (.num (n * (4/5)))) "inner_height" (.num (n * (4/5))))
        "width" (.num n)) "height" (.num n)) "size" (.num n) := rfl
  rw [h0, updateBag_stable "inner_width" _ R aiw miw,
    updateBag_stable "inner_height" _ R aih mih,
    updateBag_stable "width" _ R aw mw,
    updateBag_stable "height" _ R ah mh,
    updateBag_stable "size" _ R as' ms]

theorem merge_size_idem (bag : Bag) (n : ℚ) :
    mergeBag (mergeBag bag
      [("inner_width", .num (n * (4/5))), ("inner_height", .num (n * (4/5))),
       ("width", .num n), ("height", .num n), ("size", .num n)])
      [("inner_width", .num (n * (4/5))), ("inner_height", .num (n * (4/5))),
       ("width", .num n), ("height", .num n), ("size", .num n)] =
    mergeBag bag
      [("inner_width", .num (n * (4/5))), ("inner_height", .num (n * (4/5))),
       ("width", .num n), ("height", .num n), ("size", .num n)] := by
  have m_iw1 := mem_updateBag_key "inner_width" (.num (n * (4/5))) bag
  have m_iw2 := mem_updateBag_other "inner_height" (.num (n * (4/5)))
    "inner_width" (by decide) (.num (n * (4/5))) _ m_iw1
  have m_iw3 := mem_updateBag_other "width" (.num n)
    "inner_width" (by decide) (.num (n * (4/5))) _ m_iw2
  have m_iw4 := mem_updateBag_other "height" (.num n)
    "inner_width" (by decide) (.num (n * (4/5))) _ m_iw3
  have m_iw5 := mem_updateBag_other "size" (.num n)
    "inner_width" (by decide) (.num (n * (4/5))) _ m_iw4
  have a_iw1 := any_updateBag_self "inner_width" (.num (n * (4/5))) bag
  have a_iw2 := any_updateBag_other "inner_width" "inner_height"
    (.num (n * (4/5))) _ a_iw1
  have a_iw3 := any_updateBag_other "inner_width" "width" (.num n) _ a_iw2
  have a_iw4 := any_updateBag_other "inner_width" "height" (.num n) _ a_iw3
  have a_iw5 := any_updateBag_other "inner_width" "size" (.num n) _ a_iw4
  have m_ih1 := mem_updateBag_key "inner_height" (.num (n * (4/5)))
    (updateBag bag "inner_width" (.num (n * (4/5))))
  have m_ih2 := mem_updateBag_other "width" (.num n)
    "inner_height" (by decide) (.num (n * (4/5))) _ m_ih1
  have m_ih3 := mem_updateBag_other "height" (.num n)
    "inner_height" (by decide) (.num (n * (4/5))) _ m_ih2
  have m_ih4 := mem_updateBag_other "size" (.num n)
    "inner_height" (by decide) (.num (n * (4/5))) _ m_ih3
  have a_ih1 := any_updateBag_self "inner_height" (.num (n * (4/5)))
    (updateBag bag "inner_width" (.num (n * (4/5))))
  have a_ih2 := any_updateBag_other "inner_height" "width" (.num n) _ a_ih1
  have a_ih3 := any_updateBag_other "inner_height" "height" (.num n) _ a_ih2
  have a_ih4 := any_updateBag_other "inner_height" "size" (.num n) _ a_ih3
  have m_w1 := mem_updateBag_key "width" (.num n)
    (updateBag (updateBag bag "inner_width" (.num (n * (4/5))))
      "inner_height" (.num (n * (4/5))))
  have m_w2 := mem_updateBag_other "height" (.num n)
    "width" (by decide) (.num n) _ m_w1
  have m_w3 := mem_updateBag_other "size" (.num n)
    "width" (by decide) (.num n) _ m_w2
  have a_w1 := any_updateBag_self "width" (.num n)
    (updateBag (updateBag bag "inner_width" (.num (n * (4/5))))
      "inner_height" (.num (n * (4/5))))
  have a_w2 := any_updateBag_other "width" "height" (.num n) _ a_w1
  have a_w3 := any_updateBag_other "width" "size" (.num n) _ a_w2
  have m_h1 := mem_updateBag_key "height" (.num n)
    (updateBag (updateBag (updateBag bag "inner_width" (.num (n * (4/5))))
      "inner_height" (.num (n * (4/5)))) "width" (.num n))
  have m_h2 := mem_updateBag_other "size" (.num n)
    "height" (by decide) (.num n) _ m_h1
  have a_h1 := any_updateBag_self "height" (.num n)
    (updateBag (updateBag (updateBag bag "inner_width" (.num (n * (4/5))))
      "inner_height" (.num (n * (4/5)))) "width" (.num n))
  have a_h2 := any_updateBag_other "height" "size" (.num n) _ a_h1
  have m_s1 := mem_updateBag_key "size" (.num n)
    (updateBag (updateBag (updateBag (updateBag bag
      "inner_width" (.num (n * (4/5)))) "inner_height" (.num (n * (4/5))))
      "width" (.num n)) "height" (.num n))
  have a_s1 := any_updateBag_self "size" (.num n)
    (updateBag (updateBag (updateBag (updateBag bag
      "inner_width" (.num (n * (4/5)))) "inner_height" (.num (n * (4/5))))
      "width" (.num n)) "height" (.num n))
  exact merge_size_stable _ n a_iw5 a_ih4 a_w3 a_h2 a_s1 m_iw5 m_ih4 m_w3 m_h2 m_s1

theorem compute_border_congr (w' w : Widget) (v : PyVal)
    (h : lookupBag w'.css_params "inner_height"
      = lookupBag w.css_params "inner_height") :
    Ring.compute_border w' v = Ring.compute_border w v := by
  unfold Ring.compute_border
  rw [h]

theorem setColor_idem (w : Widget) (c : PyVal) :
    setColor (setColor w c) c = setColor w c := by
  unfold setColor compute_color
  dsimp only [mergeBag, List.foldl, render]
  rw [updateBag_idem]
  rfl

theorem setBackgroundColor_idem (w : Widget) (c : PyVal) :
    setBackgroundColor (setBackgroundColor w c) c = setBackgroundColor w c := by
  unfold setBackgroundColor compute_background_color
  dsimp only [mergeBag, List.foldl, render]
  rw [updateBag_idem]
  rfl

theorem setSize_idem (w : Widget) (n : ℚ) :
    (Ring.setSize w (.num n)).bind (fun w1 => Ring.setSize w1 (.num n)) =
      Ring.setSize w (.num n) := by
  rw [setSize_num]
  dsimp only [Except.bind]
  rw [setSize_num]
  dsimp only [render]
  rw [merge_size_idem]
  rfl

theorem setBorder_idem (w : Widget) (v : PyVal) :
    (Ring.setBorder w v).bind (fun w1 => Ring.setBorder w1 v) =
      Ring.setBorder w v := by
  cases hb : Ring.compute_border w v with
  | error e =>
    have h1 : Ring.setBorder w v = .error e := by
      unfold Ring.setBorder
      rw [hb]
    rw [h1]
    rfl
  | ok b =>
    have h1 : Ring.setBorder w v = .ok (render { w with css_params := mergeBag w.css_params [("border", b)], borderAttr := b }) := by
      unfold Ring.setBorder
      rw [hb]
    rw [h1]
    dsimp only [Except.bind]
    have hlk := lookupBag_updateBag_ne w.css_params "inner_height" "border" b
      (by decide)
    have hcb : Ring.compute_border (render { w with css_params := mergeBag w.css_params [("border", b)], borderAttr := b }) v = .ok b := by
      rw [compute_border_congr _ w v hlk, hb]
    unfold Ring.setBorder
    rw [hcb]
    dsimp only [mergeBag, List.foldl, render]
    rw [updateBag_idem]
    rfl

/-- C6 counterexample: on a constructed `Ring(size=20)`, `setMargin(3)`
hits the overflow path (`3 > 0.1 * 20`), so a second identical call grows
`size` again (`16 + 6 = 22`, then `17.6 + 6 = 23.6`): the margin setter is
not idempotent, contradicting the claim's "each other setter" clause. -/
theorem C6_counterexample :
    Ring.init "a0" (.num 20) (.str "black") (.str "") .none .none =
      .ok (ringWidget "a0" 20 "black" "") ∧
    ((Ring.setMargin (ringWidget "a0" 20 "black" "") (.num 3)).bind
      (fun w1 => Ring.setMargin w1 (.num 3))) ≠
      Ring.setMargin (ringWidget "a0" 20 "black" "") (.num 3) := by
  refine ⟨ring_init_eq "a0" 20 "black" "" (by norm_num), ?_⟩
  have hm1 := compute_margin_overflow (ringWidget "a0" 20 "black" "") 3 20
    (20 * (4/5)) (by norm_num) rfl rfl (by norm_num)
  have h1 : Ring.setMargin (ringWidget "a0" 20 "black" "") (.num 3) =
      .ok cexW1 :=
    setMargin_of_compute _ _ (.num 3) 3 hm1
  rw [h1]
  intro heq
  have h2 : Ring.setMargin cexW1 (.num 3) = .ok cexW1 := heq
  have hs1 : cexW1.sizeAttr = .num (20 * (4/5) + 2 * 3) := rfl
  have hih1 : lookupBag cexW1.css_params "inner_height" =
      some (.num ((20 * (4/5) + 2 * 3) * (4/5))) := by
    show lookupBag (updateBag (mergeBag cexW.css_params
      [("inner_width", .num ((20 * (4/5) + 2 * 3) * (4/5))),
       ("inner_height", .num ((20 * (4/5) + 2 * 3) * (4/5))),
       ("width", .num (20 * (4/5) + 2 * 3)),
       ("height", .num (20 * (4/5) + 2 * 3)),
       ("size", .num (20 * (4/5) + 2 * 3))]) "margin" (.num 3))
      "inner_height" = some (.num ((20 * (4/5) + 2 * 3) * (4/5)))
    rw [lookupBag_updateBag_ne _ _ _ _ (by decide)]
    exact (lookup_merge_size cexW.css_params (20 * (4/5) + 2 * 3)).2.2.2.2
  have hm2 := compute_margin_overflow cexW1 3 (20 * (4/5) + 2 * 3)
    ((20 * (4/5) + 2 * 3) * (4/5)) (by norm_num) hs1 hih1 (by norm_num)
  rw [setMargin_of_compute _ _ (.num 3) 3 hm2] at h2
  injection h2 with h3
  have h4 : PyVal.num ((20 * (4/5) + 2 * 3) * (4/5) + 2 * 3) =
      PyVal.num (20 * (4/5) + 2 * 3) := congrArg Widget.sizeAttr h3
  simp only [PyVal.num.injEq] at h4
  norm_num at h4

/-- C6 (amended): `setColor` is idempotent and always re-renders (the
displayed value is freshly recomputed even on a redundant call), and the
same holds for the background, size and border setters — but not for
`setMargin`, whose overflow path regrows `size` on every repeated call
(see the counterexample). -/
theorem C6_setters_idempotent (w : Widget) (c v : PyVal) (n : ℚ) :
    setColor (setColor w c) c = setColor w c ∧
    (setColor w c).value = renderValue (setColor w c) ∧
    setBackgroundColor (setBackgroundColor w c) c = setBackgroundColor w c ∧
    (Ring.setSize w (.num n)).bind (fun w1 => Ring.setSize w1 (.num n)) =
      Ring.setSize w (.num n) ∧
    (Ring.setBorder w v).bind (fun w1 => Ring.setBorder w1 v) =
      Ring.setBorder w v :=
  ⟨setColor_idem w c, rfl, setBackgroundColor_idem w c,
    setSize_idem w n, setBorder_idem w v⟩

theorem safeSub_pieces (bag : Bag) (ps : List Piece)
    (h : ∀ p ∈ ps, pieceOk p = true) :
    safeSub (renderPieces ps) bag = strConcat (ps.map (substPiece bag)) := by
  unfold safeSub
  rw [subL_pieces bag ps h]

/-- C4: `safe_substitute` replaces every placeholder whose key is in the
bag by the (stringified) bag value, leaves placeholders with missing keys
verbatim, never raises (it is a total function into strings), and only the
bag entries named by the template matter — unreferenced keys are ignored.
Templates are presented as lists of `$`-free literal chunks and `${name}`
placeholders. -/
theorem C4_safe_substitution (bag : Bag) (ps : List Piece)
    (h : ∀ p ∈ ps, pieceOk p = true) :
    safeSub (renderPieces ps) bag = strConcat (ps.map (substPiece bag)) ∧
    ∀ bag₂ : Bag, (∀ n : String, Piece.ph n ∈ ps →
        lookupStr bag₂ n = lookupStr bag n) →
      safeSub (renderPieces ps) bag₂ = safeSub (renderPieces ps) bag := by
  refine ⟨safeSub_pieces bag ps h, ?_⟩
  intro bag₂ hagree
  rw [safeSub_pieces bag ps h, safeSub_pieces bag₂ ps h]
  have hmap : ps.map (substPiece bag₂) = ps.map (substPiece bag) := by
    apply List.map_congr_left
    intro p hp
    cases p with
    | lit t => rfl
    | ph n =>
      dsimp only [substPiece]
      rw [hagree n hp]
  rw [hmap]

theorem C4_safe_substitution_witness :
    (∀ p ∈ [Piece.lit "a ", Piece.ph "color", Piece.lit " b ",
        Piece.ph "doesNotExist"], pieceOk p = true) ∧
    safeSub (renderPieces [Piece.lit "a ", Piece.ph "color", Piece.lit " b ",
        Piece.ph "doesNotExist"]) [("color", .str "red")] =
      "a red b ${doesNotExist}" := by
  have hok : ∀ p ∈ [Piece.lit "a ", Piece.ph "color", Piece.lit " b ",
      Piece.ph "doesNotExist"], pieceOk p = true := by decide
  refine ⟨hok, ?_⟩
  rw [(C4_safe_substitution [("color", .str "red")] _ hok).1]
  decide

theorem setSize_establishes_inv (w w' : Widget) (v : PyVal)
    (h : Ring.setSize w v = .ok w') : RingInv w' := by
  cases v with
  | num n =>
    rw [setSize_num] at h
    injection h with h
    subst h
    refine ⟨n, rfl, ?_, ?_, ?_, ?_, ?_⟩
    · exact (lookup_merge_size w.css_params n).1
    · exact (lookup_merge_size w.css_params n).2.1
    · exact (lookup_merge_size w.css_params n).2.2.1
    · exact (lookup_merge_size w.css_params n).2.2.2.1
    · exact (lookup_merge_size w.css_params n).2.2.2.2
  | none => simp [Ring.setSize, Ring.compute_size] at h
  | str t => simp [Ring.setSize, Ring.compute_size] at h

theorem compute_margin_preserves_inv (w w₁ : Widget) (v : PyVal) (m : ℚ)
    (hInv : RingInv w) (h : Ring.compute_margin w v = .ok (w₁, m)) :
    RingInv w₁ := by
  obtain ⟨q, hq, hsz, hwd, hht, hiw, hih⟩ := hInv
  unfold Ring.compute_margin at h
  cases hp : Ring.parse_margin w v with
  | error e =>
    rw [hp] at h
    simp at h
  | ok mp =>
    rw [hp, hq] at h
    dsimp only at h
    by_cases hover : mp > q * (1/10)
    · rw [if_pos hover] at h
      rw [hih] at h
      dsimp only [pyFloat] at h
      rw [setSize_num] at h
      simp only [Except.ok.injEq, Prod.mk.injEq] at h
      obtain ⟨hw₁, hm⟩ := h
      subst hw₁
      refine ⟨q * (4/5) + 2 * mp, rfl, ?_, ?_, ?_, ?_, ?_⟩
      · exact (lookup_merge_size w.css_params (q * (4/5) + 2 * mp)).1
      · exact (lookup_merge_size w.css_params (q * (4/5) + 2 * mp)).2.1
      · exact (lookup_merge_size w.css_params (q * (4/5) + 2 * mp)).2.2.1
      · exact (lookup_merge_size w.css_params (q * (4/5) + 2 * mp)).2.2.2.1
      · exact (lookup_merge_size w.css_params (q * (4/5) + 2 * mp)).2.2.2.2
    · rw [if_neg hover] at h
      simp only [Except.ok.injEq, Prod.mk.injEq] at h
      obtain ⟨hw₁, hm⟩ := h
      subst hw₁
      exact ⟨q, hq, hsz, hwd, hht, hiw, hih⟩

/-- C9: the Ring invariant `width = height = size` and
`inner_width = inner_height = size * 0.8` holds after construction and is
preserved by every setter — including the margin-overflow path, whose
internal size re-assignment re-runs `compute_size` and re-establishes the
derived dimensions at the new size. -/
theorem C9_ring_invariant :
    (∀ (u : String) (q : ℚ) (c b : String) (w : Widget), 0 < q →
      Ring.init u (.num q) (.str c) (.str b) .none .none = .ok w →
      RingInv w) ∧
    (∀ (w w' : Widget) (v : PyVal),
      Ring.setSize w v = .ok w' → RingInv w') ∧
    (∀ (w w' : Widget) (v : PyVal), RingInv w →
      Ring.setBorder w v = .ok w' → RingInv w') ∧
    (∀ (w w' : Widget) (v : PyVal), RingInv w →
      Ring.setMargin w v = .ok w' → RingInv w') ∧
    (∀ (w : Widget) (c : PyVal), RingInv w → RingInv (setColor w c)) ∧
    (∀ (w : Widget) (c : PyVal), RingInv w →
      RingInv (setBackgroundColor w c)) := by
  refine ⟨?_, ?_, ?_, ?_, ?_, ?_⟩
  · intro u q c b w hq h
    rw [ring_init_eq u q c b hq] at h
    injection h with h
    subst h
    exact ⟨q, rfl, rfl, rfl, rfl, rfl, rfl⟩
  · intro w w' v h
    exact setSize_establishes_inv w w' v h
  · intro w w' v hInv h
    obtain ⟨q, hq, hsz, hwd, hht, hiw, hih⟩ := hInv
    unfold Ring.setBorder at h
    cases hcb : Ring.compute_border w v with
    | error e =>
      rw [hcb] at h
      simp at h
    | ok bb =>
      rw [hcb] at h
      dsimp only at h
      injection h with h
      subst h
      refine ⟨q, hq, ?_, ?_, ?_, ?_, ?_⟩ <;>
        first
        | (show lookupBag (updateBag w.css_params "border" bb) "size"
              = some (.num q)
           rw [lookupBag_updateBag_ne _ _ _ _ (by decide)]
           exact hsz)
        | (show lookupBag (updateBag w.css_params "border" bb) "width"
              = some (.num q)
           rw [lookupBag_updateBag_ne _ _ _ _ (by decide)]
           exact hwd)
        | (show lookupBag (updateBag w.css_params "border" bb) "height"
              = some (.num q)
           rw [lookupBag_updateBag_ne _ _ _ _ (by decide)]
           exact hht)
        | (show lookupBag (updateBag w.css_params "border" bb) "inner_width"
              = some (.num (q * (4/5)))
           rw [lookupBag_updateBag_ne _ _ _ _ (by decide)]
           exact hiw)
        | (show lookupBag (updateBag w.css_params "border" bb) "inner_height"
              = some (.num (q * (4/5)))
           rw [lookupBag_updateBag_ne _ _ _ _ (by decide)]
           exact hih)
  · intro w w' v hInv h
    unfold Ring.setMargin at h
    cases hcm : Ring.compute_margin w v with
    | error e =>
      rw [hcm] at h
      simp at h
    | ok p =>
      obtain ⟨w₁, m⟩ := p
      have hInv₁ := compute_margin_preserves_inv w w₁ v m hInv hcm
      obtain ⟨q, hq, hsz, hwd, hht, hiw, hih⟩ := hInv₁
      rw [hcm] at h
      dsimp only at h
      injection h with h
      subst h
      refine ⟨q, hq, ?_, ?_, ?_, ?_, ?_⟩ <;>
        first
        | (show lookupBag (updateBag w₁.css_params "margin" (.num m)) "size"
              = some (.num q)
           rw [lookupBag_updateBag_ne _ _ _ _ (by decide)]
           exact hsz)
        | (show lookupBag (updateBag w₁.css_params "margin" (.num m)) "width"
              = some (.num q)
           rw [lookupBag_updateBag_ne _ _ _ _ (by decide)]
           exact hwd)
        | (show lookupBag (updateBag w₁.css_params "margin" (.num m)) "height"
              = some (.num q)
           rw [lookupBag_updateBag_ne _ _ _ _ (by decide)]
           exact hht)
        | (show lookupBag (updateBag w₁.css_params "margin" (.num m))
                "inner_width" = some (.num (q * (4/5)))
           rw [lookupBag_updateBag_ne _ _ _ _ (by decide)]
           exact hiw)
        | (show lookupBag (updateBag w₁.css_params "margin" (.num m))
                "inner_height" = some (.num (q * (4/5)))
           rw [lookupBag_updateBag_ne _ _ _ _ (by decide)]
           exact hih)
  · intro w c hInv
    obtain ⟨q, hq, hsz, hwd, hht, hiw, hih⟩ := hInv
    refine ⟨q, hq, ?_, ?_, ?_, ?_, ?_⟩ <;>
      first
      | (show lookupBag (updateBag w.css_params "color" c) "size"
            = some (.num q)
         rw [lookupBag_updateBag_ne _ _ _ _ (by decide)]
         exact hsz)
      | (show lookupBag (updateBag w.css_params "color" c) "width"
            = some (.num q)
         rw [lookupBag_updateBag_ne _ _ _ _ (by decide)]
         exact hwd)
      | (show lookupBag (updateBag w.css_params "color" c) "height"
            = some (.num q)
         rw [lookupBag_updateBag_ne _ _ _ _ (by decide)]
         exact hht)
      | (show lookupBag (updateBag w.css_params "color" c) "inner_width"
            = some (.num (q * (4/5)))
         rw [lookupBag_updateBag_ne _ _ _ _ (by decide)]
         exact hiw)
      | (show lookupBag (updateBag w.css_params "color" c) "inner_height"
            = some (.num (q * (4/5)))
         rw [lookupBag_updateBag_ne _ _ _ _ (by decide)]
         exact hih)
  · intro w c hInv
    obtain ⟨q, hq, hsz, hwd, hht, hiw, hih⟩ := hInv
    refine ⟨q, hq, ?_, ?_, ?_, ?_, ?_⟩ <;>
      first
      | (show lookupBag (updateBag w.css_params "background_color" c) "size"
            = some (.num q)
         rw [lookupBag_updateBag_ne _ _ _ _ (by decide)]
         exact hsz)
      | (show lookupBag (updateBag w.css_params "background_color" c) "width"
            = some (.num q)
         rw [lookupBag_updateBag_ne _ _ _ _ (by decide)]
         exact hwd)
      | (show lookupBag (updateBag w.css_params "background_color" c)
              "height" = some (.num q)
         rw [lookupBag_updateBag_ne _ _ _ _ (by decide)]
         exact hht)
      | (show lookupBag (updateBag w.css_params "background_color" c)
              "inner_width" = some (.num (q * (4/5)))
         rw [lookupBag_updateBag_ne _ _ _ _ (by decide)]
         exact hiw)
      | (show lookupBag (updateBag w.css_params "background_color" c)
              "inner_height" = some (.num (q * (4/5)))
         rw [lookupBag_updateBag_ne _ _ _ _ (by decide)]
         exact hih)

theorem C9_ring_invariant_witness :
    RingInv (ringWidget "a0" 20 "black" "") ∧
    RingInv (setColor (ringWidget "a0" 20 "black" "") (.str "red")) := by
  have h1 : RingInv (ringWidget "a0" 20 "black" "") :=
    C9_ring_invariant.1 "a0" 20 "black" "" _ (by norm_num)
      (ring_init_eq "a0" 20 "black" "" (by norm_num))
  exact ⟨h1, C9_ring_invariant.2.2.2.2.1 _ (.str "red") h1⟩

theorem ringCss_pieces_eq : renderPieces ringCssPieces = ringCss := by decide

theorem templateStr_pieces_eq : renderPieces templatePieces = templateStr := by
  decide

theorem ringCssPieces_ok : ∀ p ∈ ringCssPieces, pieceOk p = true := by decide

theorem templatePieces_ok : ∀ p ∈ templatePieces, pieceOk p = true := by decide

theorem safeSub_no_dollar (bag : Bag) (t : String)
    (h : ∀ c ∈ t.data, c ≠ '$') : safeSub t bag = t := by
  have h2 := subL_lit bag t.data [] h
  rw [List.append_nil] at h2
  rw [safeSub, h2, subL_nil, List.append_nil]

theorem flattenSegs_nil (u : String) : flattenSegs u [] = "" := rfl

theorem flattenSegs_lit (u s : String) (rest : List Seg) :
    flattenSegs u (Seg.lit s :: rest) = s ++ flattenSegs u rest := rfl

theorem flattenSegs_uid (u : String) (rest : List Seg) :
    flattenSegs u (Seg.uid :: rest) = u ++ flattenSegs u rest := rfl

theorem strAppend_assoc (a b c : String) : a ++ b ++ c = a ++ (b ++ c) := by
  apply String.ext
  simp [String.data_append]

theorem flattenSegs_append (u : String) (a b : List Seg) :
    flattenSegs u (a ++ b) = flattenSegs u a ++ flattenSegs u b := by
  induction a with
  | nil =>
    rw [List.nil_append, flattenSegs_nil]
    apply String.ext
    simp [String.data_append]
  | cons sg rest ih =>
    cases sg with
    | lit s =>
      rw [List.cons_append, flattenSegs_lit, flattenSegs_lit, ih, strAppend_assoc]
    | uid =>
      rw [List.cons_append, flattenSegs_uid, flattenSegs_uid, ih, strAppend_assoc]

theorem flatten_bagSegs (bagd bag : Bag) (u : String) (ps : List Piece)
    (hcc : lookupStr bagd "css_class" = some u)
    (hother : ∀ n, n ≠ "css_class" → lookupStr bagd n = lookupStr bag n) :
    strConcat (ps.map (substPiece bagd)) = flattenSegs u (bagSegs bag ps) := by
  induction ps with
  | nil => rfl
  | cons p rest ih =>
    cases p with
    | lit s =>
      simp only [List.map_cons, strConcat, bagSegs, pieceSeg, flattenSegs,
        substPiece] at *
      rw [ih]
    | ph n =>
      by_cases hn : n = "css_class"
      · subst hn
        simp only [List.map_cons, strConcat, substPiece, hcc, bagSegs,
          List.map_cons, pieceSeg, beq_self_eq_true, if_true, flattenSegs] at *
        rw [ih]
      · have hb : (n == "css_class") = false := by
          simp only [beq_eq_false_iff_ne, ne_eq]; exact hn
        simp only [List.map_cons, strConcat, bagSegs, pieceSeg, hb,
          Bool.false_eq_true, if_false, flattenSegs, substPiece] at *
        rw [hother n hn, ih]

theorem template_subst (x y z : String) :
    safeSub templateStr [("css", .str x), ("html", .str y), ("css_class", .str z)] =
      strConcat [tmplO0, x, tmplO1, z, tmplO2, y, tmplO3] := by
  rw [← templateStr_pieces_eq, safeSub_pieces _ _ templatePieces_ok]
  congr 1

theorem ringSegs_flatten (u : String) (q : ℚ) (c b : String) :
    flattenSegs u (ringSegs q c b) =
      strConcat [tmplO0, flattenSegs u (bagSegs (ringFinalBag "" q c b) ringCssPieces),
        tmplO1, u, tmplO2, ringHtml, tmplO3] := by
  rw [ringSegs, flattenSegs_lit, flattenSegs_append]
  rfl

theorem renderValue_eq (w : Widget) :
    (render w).value = safeSub templateStr
      [("css", .str (safeSub w.css w.css_params)),
       ("html", .str (safeSub w.html [("css_class", .str w.uid)])),
       ("css_class", .str w.uid)] := rfl

theorem lookup_ringFinalBag_cc (u : String) (q : ℚ) (c b : String) :
    lookupStr (ringFinalBag u q c b) "css_class" = some u := by
  simp [ringFinalBag, lookupStr, lookupBag_cons, pyStr]

theorem lookup_ringFinalBag_other (u : String) (q : ℚ) (c b : String) :
    ∀ n, n ≠ "css_class" →
      lookupStr (ringFinalBag u q c b) n = lookupStr (ringFinalBag "" q c b) n := by
  intro n hn
  have h5 : ("css_class" == n) = false := by
    simp only [beq_eq_false_iff_ne, ne_eq]
    exact fun h => hn h.symm
  simp [ringFinalBag, lookupStr, lookupBag_cons, h5]

/-- The markup of a freshly constructed Ring: the id-independent fragment
list assembled with the instance id. -/
theorem ring_value_factor (u : String) (q : ℚ) (c b : String) :
    (ringWidget u q c b).value = flattenSegs u (ringSegs q c b) := by
  rw [ringWidget, renderValue_eq]
  dsimp only [ringWidgetPre]
  rw [safeSub_no_dollar [("css_class", PyVal.str u)] ringHtml (by decide)]
  rw [← ringCss_pieces_eq, safeSub_pieces _ _ ringCssPieces_ok]
  rw [flatten_bagSegs (ringFinalBag u q c b) (ringFinalBag "" q c b) u ringCssPieces
    (lookup_ringFinalBag_cc u q c b) (lookup_ringFinalBag_other u q c b)]
  rw [template_subst, ringSegs_flatten]

theorem replaceAllAux_fuel (p q : List Char) :
    ∀ f1 : ℕ, ∀ f2 : ℕ, ∀ l : List Char, l.length ≤ f1 → l.length ≤ f2 →
      replaceAllAux p q f1 l = replaceAllAux p q f2 l := by
  intro f1
  induction f1 with
  | zero =>
    intro f2 l h1 h2
    have : l = [] := List.length_eq_zero.mp (Nat.le_antisymm h1 (Nat.zero_le _))
    subst this
    cases f2 <;> rfl
  | succ f ih =>
    intro f2 l h1 h2
    cases l with
    | nil => cases f2 <;> rfl
    | cons c cs =>
      cases f2 with
      | zero => simp at h2
      | succ g =>
        simp only [replaceAllAux]
        by_cases hc : (p.isPrefixOf (c :: cs) && !p.isEmpty) = true
        · rw [if_pos hc, if_pos hc]
          congr 1
          have hp1 : 1 ≤ p.length := by
            have hand := hc
            rw [Bool.and_eq_true] at hand
            rcases hand with ⟨h1a, hne⟩
            cases p with
            | nil => simp at hne
            | cons a as => simp
          apply ih
          · simp only [List.length_drop, List.length_cons]
            simp only [List.length_cons] at h1
            omega
          · simp only [List.length_drop, List.length_cons]
            simp only [List.length_cons] at h2
            omega
        · rw [if_neg hc, if_neg hc]
          congr 1
          apply ih
          · simp only [List.length_cons] at h1; omega
          · simp only [List.length_cons] at h2; omega

theorem replaceAllAux_uid (h : Char) (t q R : List Char) :
    replaceAllAux (h :: t) q ((h :: t) ++ R).length ((h :: t) ++ R) =
      q ++ replaceAllAux (h :: t) q R.length R := by
  have hpre : ((h :: t).isPrefixOf ((h :: t) ++ R) && !(h :: t).isEmpty) = true := by
    rw [Bool.and_eq_true]
    constructor
    · rw [List.isPrefixOf_iff_prefix]
      exact List.prefix_append _ _
    · rfl
  have hlen : ((h :: t) ++ R).length = (t ++ R).length + 1 := by simp
  rw [hlen]
  show (if ((h :: t).isPrefixOf (h :: (t ++ R)) && !(h :: t).isEmpty) = true then
      q ++ replaceAllAux (h :: t) q (t ++ R).length
        (List.drop (h :: t).length (h :: (t ++ R)))
    else h :: replaceAllAux (h :: t) q (t ++ R).length (t ++ R)) = _
  rw [if_pos (by simp only [List.cons_append] at hpre; exact hpre)]
  congr 1
  have hdrop : List.drop (h :: t).length (h :: (t ++ R)) = R := by
    have : h :: (t ++ R) = (h :: t) ++ R := by simp
    rw [this]
    exact List.drop_left _ _
  rw [hdrop]
  apply replaceAllAux_fuel
  · simp [List.length_append]
  · exact le_rfl

theorem replaceAllAux_nomatch (p q : List Char) :
    ∀ s R : List Char,
      (∀ i, i < s.length → p.isPrefixOf (List.drop i (s ++ R)) = false) →
      replaceAllAux p q (s ++ R).length (s ++ R) =
        s ++ replaceAllAux p q R.length R := by
  intro s
  induction s with
  | nil => intro R _; rfl
  | cons c cs ih =>
    intro R hs
    have h0 : p.isPrefixOf (c :: (cs ++ R)) = false := by
      have h1 := hs 0 (by simp)
      simpa using h1
    simp only [List.cons_append, List.length_cons, replaceAllAux, h0,
      Bool.false_and, Bool.false_eq_true, if_false, List.append_eq]
    have ih2 := ih R (fun i hi => by
      have h2 := hs (i + 1) (by simp only [List.length_cons]; omega)
      simpa [List.cons_append, List.drop_succ_cons] using h2)
    rw [ih2]

theorem replace_isolated_aux (u1 u2 : String) (h : Char) (t : List Char)
    (hu : u1.data = h :: t) :
    ∀ segs : List Seg, segsIsolated u1.data u1 segs = true →
      replaceAllAux u1.data u2.data (flattenSegs u1 segs).data.length
        (flattenSegs u1 segs).data = (flattenSegs u2 segs).data := by
  intro segs
  induction segs with
  | nil => intro hi; rfl
  | cons sg rest ih =>
    intro hiso
    cases sg with
    | lit s =>
      simp only [segsIsolated, Bool.and_eq_true] at hiso
      obtain ⟨hs, hrest⟩ := hiso
      have hnom : ∀ i, i < s.data.length →
          u1.data.isPrefixOf
            (List.drop i (s.data ++ (flattenSegs u1 rest).data)) = false := by
        intro i hi
        have h2 := List.all_eq_true.mp hs i (List.mem_range.mpr hi)
        simpa using h2
      rw [flattenSegs_lit, flattenSegs_lit, String.data_append,
        String.data_append]
      rw [replaceAllAux_nomatch u1.data u2.data s.data _ hnom]
      rw [ih hrest]
    | uid =>
      simp only [segsIsolated] at hiso
      rw [flattenSegs_uid, flattenSegs_uid, String.data_append,
        String.data_append, hu]
      rw [replaceAllAux_uid h t u2.data _]
      rw [← hu, ih hiso]

theorem replace_isolated (u1 u2 : String) (segs : List Seg)
    (hne : u1.data ≠ [])
    (hiso : segsIsolated u1.data u1 segs = true) :
    strReplace (flattenSegs u1 segs) u1 u2 = flattenSegs u2 segs := by
  cases hu : u1.data with
  | nil => exact absurd hu hne
  | cons h t =>
    have key := replace_isolated_aux u1 u2 h t hu segs hiso
    rw [strReplace, key]

theorem ringFinalBag_fifty : ringFinalBag "" 50 "black" "" =
    [("size", .num 50), ("color", .str "black"), ("border", .num 4),
     ("background_color", .str ""), ("css_class", .str ""),
     ("inner_width", .num 40), ("inner_height", .num 40),
     ("width", .num 50), ("height", .num 50), ("margin", .num 5)] := by
  norm_num [ringFinalBag]

theorem segsIsolated_uuid :
    segsIsolated (String.data "a1b9f3c2d-0a4e-4f8b-9c6d-2e7a5b3c8d1f")
      "a1b9f3c2d-0a4e-4f8b-9c6d-2e7a5b3c8d1f" (ringSegs 50 "black" "") = true := by
  show segsIsolated (String.data "a1b9f3c2d-0a4e-4f8b-9c6d-2e7a5b3c8d1f")
    "a1b9f3c2d-0a4e-4f8b-9c6d-2e7a5b3c8d1f" (Seg.lit tmplO0 ::
      (bagSegs (ringFinalBag "" 50 "black" "") ringCssPieces ++
        [Seg.lit tmplO1, Seg.uid, Seg.lit tmplO2, Seg.lit ringHtml,
         Seg.lit tmplO3])) = true
  rw [ringFinalBag_fifty]
  decide

/-- C8: two `Ring`s constructed with identical parameters but distinct
unique ids produce markup that differs only in the id: replacing every
occurrence of the first instance's id in its markup by the second's yields
exactly the second instance's markup.  The isolation hypothesis
`segsIsolated` states that no occurrence of the first id starts inside a
literal fragment of the markup — i.e. the id really does occur only as the
scoping identifier, which is what "differs only in the id" presupposes; it
is a decidable per-instance check and holds for the ids the program
generates (see `segsIsolated`). -/
theorem C8_unique_id_scoping (u1 u2 : String) (q : ℚ) (c b : String)
    (w1 w2 : Widget) (hq : 0 < q)
    (h1 : Ring.init u1 (.num q) (.str c) (.str b) .none .none = .ok w1)
    (h2 : Ring.init u2 (.num q) (.str c) (.str b) .none .none = .ok w2)
    (hne : u1.data ≠ [])
    (hiso : segsIsolated u1.data u1 (ringSegs q c b) = true) :
    strReplace w1.value u1 u2 = w2.value := by
  rw [ring_init_eq u1 q c b hq] at h1
  rw [ring_init_eq u2 q c b hq] at h2
  injection h1 with h1
  injection h2 with h2
  rw [← h1, ← h2, ring_value_factor, ring_value_factor]
  exact replace_isolated u1 u2 (ringSegs q c b) hne hiso

theorem C8_unique_id_scoping_witness :
    strReplace (ringWidget "a1b9f3c2d-0a4e-4f8b-9c6d-2e7a5b3c8d1f" 50 "black" "").value
        "a1b9f3c2d-0a4e-4f8b-9c6d-2e7a5b3c8d1f" "a7e2c4d1f-3b5a-4c8e-8f1d-6a9b0c2d4e7f" =
      (ringWidget "a7e2c4d1f-3b5a-4c8e-8f1d-6a9b0c2d4e7f" 50 "black" "").value :=
  C8_unique_id_scoping "a1b9f3c2d-0a4e-4f8b-9c6d-2e7a5b3c8d1f" "a7e2c4d1f-3b5a-4c8e-8f1d-6a9b0c2d4e7f"
    50 "black" ""
    (ringWidget "a1b9f3c2d-0a4e-4f8b-9c6d-2e7a5b3c8d1f" 50 "black" "")
    (ringWidget "a7e2c4d1f-3b5a-4c8e-8f1d-6a9b0c2d4e7f" 50 "black" "")
    (by norm_num)
    (ring_init_eq "a1b9f3c2d-0a4e-4f8b-9c6d-2e7a5b3c8d1f" 50 "black" "" (by norm_num))
    (ring_init_eq "a7e2c4d1f-3b5a-4c8e-8f1d-6a9b0c2d4e7f" 50 "black" "" (by norm_num))
    (by decide)
    segsIsolated_uuid

end IpyLoading
